import Mathlib

/-!
# Contact-form pipeline of the portfolio server (`src/server.js`)

A shallow embedding of the validation and sanitization code of `src/server.js`:
the four `validators`, `validateContactForm` and `sanitizeInput`, together with
the fragments of the JavaScript string and regular-expression semantics they
rely on (`String.prototype.trim`, `length`, `replace`, `substring`,
`RegExp.prototype.test`), the handler of `POST /contact` with the relay behind
`transporter.sendMail` as a parameter, and the browser-side validators of
`src/main.js` and `src/public/js/main.js`.
-/

namespace Portafolio

/-! ## JavaScript strings and values -/

/-- A JavaScript string is its sequence of UTF-16 code units (each below `65536`);
`length` counts code units. -/
abbrev JSString := List Nat

/-- UTF-16 code units of one Unicode scalar value. -/
def utf16Units (n : Nat) : List Nat :=
  if n < 65536 then [n]
  else [55296 + (n - 65536) / 1024, 56320 + (n - 65536) % 1024]

/-- The JavaScript string denoted by a string literal. -/
def jsStr (s : String) : JSString :=
  s.toList.flatMap (fun c => utf16Units c.toNat)

/-- The JavaScript values a request body field can hold. A number is represented by
an integer: the code below only observes its type tag and whether it is zero. -/
inductive JSValue where
  | undefined
  | null
  | boolean (b : Bool)
  | number (n : Int)
  | string (s : JSString)
  | array
  | object
  deriving DecidableEq, Repr

/-- ECMAScript `ToBoolean`: the truthiness tested by `!value`. -/
def JSValue.toBoolean : JSValue → Bool
  | .undefined => false
  | .null => false
  | .boolean b => b
  | .number n => n != 0
  | .string s => s.length != 0
  | .array => true
  | .object => true

/-- Whether `typeof value === 'string'`. -/
def JSValue.isString : JSValue → Bool
  | .string _ => true
  | _ => false

/-- The code units of a string value (only reached under `typeof value === 'string'`). -/
def JSValue.units : JSValue → JSString
  | .string s => s
  | _ => []

/-- ECMAScript `WhiteSpace` and `LineTerminator` code units: what `trim` strips and
what `\s` matches. -/
def whiteSpaceRanges : List (Nat × Nat) :=
  [(9, 13), (32, 32), (160, 160), (5760, 5760), (8192, 8202), (8232, 8233),
   (8239, 8239), (8287, 8287), (12288, 12288), (65279, 65279)]

/-- Membership of a code unit in a list of inclusive ranges. -/
def inRanges (rs : List (Nat × Nat)) (c : Nat) : Bool :=
  rs.any (fun r => decide (r.1 ≤ c) && decide (c ≤ r.2))

/-- Whether a code unit is white space or a line terminator. -/
def isWhiteSpace (c : Nat) : Bool := inRanges whiteSpaceRanges c

/-- `String.prototype.trim`: strip leading and trailing white space. -/
def trim (s : JSString) : JSString :=
  ((s.dropWhile isWhiteSpace).reverse.dropWhile isWhiteSpace).reverse

/-- `String.prototype.substring(start, end)` for non-negative integer arguments. -/
def substring (s : JSString) (start stop : Nat) : JSString :=
  let finalStart := min start s.length
  let finalEnd := min stop s.length
  let lo := min finalStart finalEnd
  let hi := max finalStart finalEnd
  (s.drop lo).take (hi - lo)

/-! ## Regular expressions -/

/-- Uppercase form of a code unit as `String.prototype.toUpperCase` gives it, on
Basic Latin and Latin-1 Supplement, together with the two code units outside that
range whose uppercase form is ASCII (dotless i and long s). `223` (sharp s) has a
two-unit uppercase form, which `Canonicalize` discards, so it is listed as fixed.
Every other code unit above `255` is modelled as fixed: its uppercase form also lies
above `255` and is no white space, so it can never meet the canonical form of a
member of the classes below (Basic Latin, Latin-1 and white space). -/
def toUpperUnit (c : Nat) : Nat :=
  if 97 ≤ c ∧ c ≤ 122 then c - 32
  else if 224 ≤ c ∧ c ≤ 254 ∧ c ≠ 247 then c - 32
  else if c = 181 then 924
  else if c = 255 then 376
  else if c = 305 then 73
  else if c = 383 then 83
  else c

/-- ECMAScript `Canonicalize(ch)` for a pattern without the `u` flag. -/
def canonicalize (ignoreCase : Bool) (ch : Nat) : Nat :=
  if ignoreCase then
    let cu := toUpperUnit ch
    if 128 ≤ ch ∧ cu < 128 then ch else cu
  else ch

/-- A character class `[...]` or `[^...]`: inclusive code-unit ranges. -/
structure CharClass where
  ranges : List (Nat × Nat)
  negated : Bool

/-- The character set denoted by the ranges of a class. -/
def CharClass.members (k : CharClass) : List Nat :=
  k.ranges.flatMap (fun r => List.range' r.1 (r.2 + 1 - r.1))

/-- ECMAScript `CharacterSetMatcher`: the class matches `ch` when some member has
the same canonical form (and the reverse for a negated class). -/
def CharClass.test (ignoreCase : Bool) (k : CharClass) (ch : Nat) : Bool :=
  let found := k.members.any
    (fun a => canonicalize ignoreCase a == canonicalize ignoreCase ch)
  if k.negated then !found else found

/-- One term of a pattern: a class matched once, or a class under `+`. -/
inductive Atom where
  | one (k : CharClass)
  | plus (k : CharClass)

/-- A pattern of the form `/^ atoms $/` with its `i` flag. -/
structure Regex where
  atoms : List Atom
  ignoreCase : Bool

/-- Backtracking match of a sequence of atoms against the whole remaining input
(the pattern is anchored by `^` and `$`); a `+` is tried greedily first. -/
def matchAtoms (ic : Bool) : List Atom → JSString → Bool
  | [], [] => true
  | [], _ :: _ => false
  | _ :: _, [] => false
  | Atom.one k :: rs, c :: w => k.test ic c && matchAtoms ic rs w
  | Atom.plus k :: rs, c :: w =>
    k.test ic c && (matchAtoms ic (Atom.plus k :: rs) w || matchAtoms ic rs w)

/-- `RegExp.prototype.test` for an anchored pattern without the `g` or `y` flag. -/
def Regex.test (r : Regex) (s : JSString) : Bool :=
  matchAtoms r.ignoreCase r.atoms s

/-- `String.prototype.replace(/[...]/g, replacement)` for a pattern that is a single
character class: every matching code unit is replaced. -/
def replaceAll (k : CharClass) (replacement : JSString) (s : JSString) : JSString :=
  s.flatMap (fun c => if k.test false c then replacement else [c])

/-- The class `[a-záéíóúñü\s]` of the name pattern. -/
def nameClass : CharClass :=
  { ranges := [(97, 122), (225, 225), (233, 233), (237, 237), (243, 243), (250, 250),
      (241, 241), (252, 252)] ++ whiteSpaceRanges,
    negated := false }

/-- The pattern `/^[a-záéíóúñü\s]+$/i`. -/
def nameRegex : Regex :=
  { atoms := [Atom.plus nameClass], ignoreCase := true }

/-- The class `[^\s@]`. -/
def notSpaceAt : CharClass :=
  { ranges := whiteSpaceRanges ++ [(64, 64)], negated := true }

/-- The pattern `/^[^\s@]+@[^\s@]+\.[^\s@]+$/`. -/
def emailRegex : Regex :=
  { atoms := [Atom.plus notSpaceAt, Atom.one ⟨[(64, 64)], false⟩, Atom.plus notSpaceAt,
      Atom.one ⟨[(46, 46)], false⟩, Atom.plus notSpaceAt],
    ignoreCase := false }

/-- The class `[<>]`. -/
def angleClass : CharClass :=
  { ranges := [(60, 60), (62, 62)], negated := false }

/-! ## Validators (`src/server.js`, lines 92-126) -/

/-- The field validator `validators.name`; `none` is `null`. -/
def validators.name (value : JSValue) : Option String :=
  if !value.toBoolean || !value.isString then some "El nombre es requerido"
  else
    let trimmed := trim value.units
    if trimmed.length < 2 then some "El nombre debe tener al menos 2 caracteres"
    else if trimmed.length > 100 then some "El nombre es demasiado largo"
    else if !nameRegex.test trimmed then some "El nombre contiene caracteres inválidos"
    else none

/-- The field validator `validators.email`. -/
def validators.email (value : JSValue) : Option String :=
  if !value.toBoolean || !value.isString then some "El email es requerido"
  else
    let trimmed := trim value.units
    if !emailRegex.test trimmed then some "Email inválido"
    else if trimmed.length > 254 then some "Email demasiado largo"
    else none

/-- The field validator `validators.subject`. -/
def validators.subject (value : JSValue) : Option String :=
  if !value.toBoolean || !value.isString then some "El asunto es requerido"
  else
    let trimmed := trim value.units
    if trimmed.length < 3 then some "El asunto debe tener al menos 3 caracteres"
    else if trimmed.length > 200 then some "El asunto es demasiado largo"
    else none

/-- The field validator `validators.message`. -/
def validators.message (value : JSValue) : Option String :=
  if !value.toBoolean || !value.isString then some "El mensaje es requerido"
  else
    let trimmed := trim value.units
    if trimmed.length < 10 then some "El mensaje debe tener al menos 10 caracteres"
    else if trimmed.length > 5000 then some "El mensaje es demasiado largo"
    else none

/-- The keys of the `validators` object. -/
inductive Field where
  | name
  | email
  | subject
  | message
  deriving DecidableEq, Repr

/-- `Object.keys(validators)`: the keys in the order the object literal lists them. -/
def validatorKeys : List Field := [Field.name, Field.email, Field.subject, Field.message]

/-- `validators[field]`. -/
def validators : Field → JSValue → Option String
  | Field.name => validators.name
  | Field.email => validators.email
  | Field.subject => validators.subject
  | Field.message => validators.message

/-- The object handed to `validateContactForm`: the four properties it reads
(`undefined` for a missing one). -/
structure ContactData where
  name : JSValue
  email : JSValue
  subject : JSValue
  message : JSValue
  deriving DecidableEq, Repr

/-- `data[field]`. -/
def ContactData.get (data : ContactData) : Field → JSValue
  | Field.name => data.name
  | Field.email => data.email
  | Field.subject => data.subject
  | Field.message => data.message

/-- The `errors` object: its own properties in insertion order. -/
abbrev Errors := List (Field × String)

/-- `errors[field] = error`: overwrite an existing property in place, else append. -/
def Errors.set : Errors → Field → String → Errors
  | [], f, m => [(f, m)]
  | (g, n) :: rest, f, m =>
    if g = f then (g, m) :: rest else (g, n) :: Errors.set rest f m

/-- `Object.keys(errors)`. -/
def Errors.keys (errors : Errors) : List Field := errors.map Prod.fst

/-- `errors[field]`, with `none` for `undefined`. -/
def Errors.get (errors : Errors) (f : Field) : Option String :=
  (errors.find? (fun e => decide (e.1 = f))).map Prod.snd

/-- Truthiness of a validator result as tested by `if (error)`: neither `null` nor
the empty string. -/
def errorTruthy : Option String → Bool
  | none => false
  | some m => m != ""

/-- The result object of `validateContactForm`. -/
structure ValidationResult where
  isValid : Bool
  errors : Errors

/-- The body of the `forEach` callback of `validateContactForm`. -/
def validateStep (data : ContactData) (errors : Errors) (field : Field) : Errors :=
  let error := validators field (data.get field)
  if errorTruthy error then errors.set field (error.getD "") else errors

/-- The function `validateContactForm` (`src/server.js`, lines 128-142). -/
def validateContactForm (data : ContactData) : ValidationResult :=
  let errors := validatorKeys.foldl (validateStep data) []
  { isValid := errors.keys.length == 0, errors := errors }

/-! ## Sanitization (`src/server.js`, lines 147-153) -/

/-- The function `sanitizeInput`. -/
def sanitizeInput (input : JSValue) : JSString :=
  if !input.isString then []
  else substring (replaceAll angleClass [] (trim input.units)) 0 5000

/-! ## Validation with the method calls able to throw -/

/-- An exception thrown by the JavaScript runtime. -/
inductive JSError where
  | typeError
  deriving DecidableEq, Repr

/-- The method call `value.trim()`: a `TypeError` unless `value` is a string (`trim` is
read from `undefined` or `null`, or is not a function of the value). -/
def JSValue.trimCall : JSValue → Except JSError JSString
  | .string s => .ok (trim s)
  | _ => .error JSError.typeError

/-- The validator `validators.name`, with `value.trim()` as a call that may throw. -/
def validators.nameChecked (value : JSValue) : Except JSError (Option String) :=
  if !value.toBoolean || !value.isString then .ok (some "El nombre es requerido")
  else
    match value.trimCall with
    | .error e => .error e
    | .ok trimmed =>
      if trimmed.length < 2 then .ok (some "El nombre debe tener al menos 2 caracteres")
      else if trimmed.length > 100 then .ok (some "El nombre es demasiado largo")
      else if !nameRegex.test trimmed then
        .ok (some "El nombre contiene caracteres inválidos")
      else .ok none

/-- The validator `validators.email`, with `value.trim()` as a call that may throw. -/
def validators.emailChecked (value : JSValue) : Except JSError (Option String) :=
  if !value.toBoolean || !value.isString then .ok (some "El email es requerido")
  else
    match value.trimCall with
    | .error e => .error e
    | .ok trimmed =>
      if !emailRegex.test trimmed then .ok (some "Email inválido")
      else if trimmed.length > 254 then .ok (some "Email demasiado largo")
      else .ok none

/-- The validator `validators.subject`, with `value.trim()` as a call that may throw. -/
def validators.subjectChecked (value : JSValue) : Except JSError (Option String) :=
  if !value.toBoolean || !value.isString then .ok (some "El asunto es requerido")
  else
    match value.trimCall with
    | .error e => .error e
    | .ok trimmed =>
      if trimmed.length < 3 then .ok (some "El asunto debe tener al menos 3 caracteres")
      else if trimmed.length > 200 then .ok (some "El asunto es demasiado largo")
      else .ok none

/-- The validator `validators.message`, with `value.trim()` as a call that may throw. -/
def validators.messageChecked (value : JSValue) : Except JSError (Option String) :=
  if !value.toBoolean || !value.isString then .ok (some "El mensaje es requerido")
  else
    match value.trimCall with
    | .error e => .error e
    | .ok trimmed =>
      if trimmed.length < 10 then .ok (some "El mensaje debe tener al menos 10 caracteres")
      else if trimmed.length > 5000 then .ok (some "El mensaje es demasiado largo")
      else .ok none

/-- `validators[field]`, with exceptions. -/
def validatorsChecked : Field → JSValue → Except JSError (Option String)
  | Field.name => validators.nameChecked
  | Field.email => validators.emailChecked
  | Field.subject => validators.subjectChecked
  | Field.message => validators.messageChecked

/-- The `forEach` callback of `validateContactForm`, with exceptions. -/
def validateStepChecked (data : ContactData) (errors : Errors) (field : Field) :
    Except JSError Errors :=
  match validatorsChecked field (data.get field) with
  | .error e => .error e
  | .ok error => .ok (if errorTruthy error then errors.set field (error.getD "") else errors)

/-- The function `validateContactForm`, with exceptions: an exception thrown by a
callback of `forEach` ends the loop and leaves the function. -/
def validateContactFormChecked (data : ContactData) : Except JSError ValidationResult :=
  match validatorKeys.foldlM (validateStepChecked data) [] with
  | .error e => .error e
  | .ok errors => .ok { isValid := errors.keys.length == 0, errors := errors }

/-- The message a validator returns for a missing, non-string or empty value. -/
def requiredMessage : Field → String
  | Field.name => "El nombre es requerido"
  | Field.email => "El email es requerido"
  | Field.subject => "El asunto es requerido"
  | Field.message => "El mensaje es requerido"

/-! ## The `POST /contact` handler (`src/server.js`, lines 167-309) -/

/-- The environment variables the handler reads; `none` is `undefined`. -/
structure Env where
  EMAIL_USER : Option JSString
  OWNER_EMAIL : Option JSString

/-- A value of `process.env` interpolated into a template literal. -/
def templateValue : Option JSString → JSString
  | none => jsStr "undefined"
  | some s => s

/-- The expression `value || fallback` for a value of `process.env`. -/
def orDefault (value : Option JSString) (fallback : JSString) : JSString :=
  match value with
  | none => fallback
  | some s => if s.length != 0 then s else fallback

/-- The object `sanitizedData`. -/
structure SanitizedData where
  name : JSString
  email : JSString
  subject : JSString
  message : JSString
  deriving DecidableEq, Repr

/-- The `html` template literal of a message: which of the two templates it is and
the values interpolated into it (`fecha` is the formatted `new Date()`). -/
inductive Html where
  | ownerTemplate (name email subject message fecha : JSString)
  | senderTemplate (name message : JSString)
  deriving DecidableEq, Repr

/-- A message object handed to `transporter.sendMail`. -/
structure Mail where
  from_ : JSString
  to_ : JSString
  replyTo : Option JSString
  subject : JSString
  html : Html
  deriving DecidableEq, Repr

/-- The object `mailToOwner`. -/
def mailToOwner (env : Env) (fecha : JSString) (sanitizedData : SanitizedData) : Mail :=
  { from_ := jsStr "\"Portafolio Contacto\" <" ++ templateValue env.EMAIL_USER ++ jsStr ">",
    to_ := orDefault env.OWNER_EMAIL (jsStr "alex.rivera@email.com"),
    replyTo := some sanitizedData.email,
    subject := jsStr "Nuevo mensaje de portafolio: " ++ sanitizedData.subject,
    html := Html.ownerTemplate sanitizedData.name sanitizedData.email sanitizedData.subject
      sanitizedData.message fecha }

/-- The object `mailToSender`. -/
def mailToSender (env : Env) (sanitizedData : SanitizedData) : Mail :=
  { from_ := jsStr "\"Alex Rivera\" <" ++ templateValue env.EMAIL_USER ++ jsStr ">",
    to_ := sanitizedData.email,
    replyTo := none,
    subject := jsStr "Gracias por tu mensaje - Alex Rivera",
    html := Html.senderTemplate sanitizedData.name sanitizedData.message }

/-- The relay behind `transporter.sendMail`, as one request sees it: given the
messages already submitted in this request and the next one, it accepts (`none`) or
fails with an error. Every call is taken to settle. -/
abbrev Relay (ε : Type) := List Mail → Mail → Option ε

/-- The context object handed to `res.render`; `none` is an absent property. -/
structure RenderContext where
  title : String
  success : Option String
  error : Option String
  formData : Option ContactData
  errors : Option Errors

/-- A response: the status code and the rendered view with its context. -/
structure Response where
  status : Nat
  view : String
  context : RenderContext

/-- The call `res.render('index', context)`: the status is left at its default. -/
def renderIndex (context : RenderContext) : Response :=
  { status := 200, view := "index", context := context }

/-- The title every rendering of the handler carries. -/
def pageTitle : String := "Alex Rivera - Full-Stack Developer"

/-- The `try` block of the handler: its result (a response, or the error thrown at an
`await`), the `sendMail` calls made in order, and `sanitizedData` once it is built. -/
def postContactTry {ε : Type} (env : Env) (fecha : JSString) (relay : Relay ε)
    (body : ContactData) : Except ε Response × List Mail × Option SanitizedData :=
  let name := body.name
  let email := body.email
  let subject := body.subject
  let message := body.message
  let validation := validateContactForm
    { name := name, email := email, subject := subject, message := message }
  if !validation.isValid then
    (.ok (renderIndex
      { title := pageTitle,
        success := none,
        error := some "Por favor, corrige los errores en el formulario",
        formData := some (ContactData.mk name email subject message),
        errors := some validation.errors }), [], none)
  else
    let sanitizedData : SanitizedData :=
      { name := sanitizeInput name, email := sanitizeInput email,
        subject := sanitizeInput subject, message := sanitizeInput message }
    let owner := mailToOwner env fecha sanitizedData
    let sender := mailToSender env sanitizedData
    match relay [] owner with
    | some e => (.error e, [owner], some sanitizedData)
    | none =>
      match relay [owner] sender with
      | some e => (.error e, [owner, sender], some sanitizedData)
      | none =>
        (.ok (renderIndex
          { title := pageTitle,
            success := some "¡Mensaje enviado correctamente! Te responderé pronto.",
            error := none, formData := none, errors := none }),
          [owner, sender], some sanitizedData)

/-- What one run of the handler did. -/
structure HandlerRun (ε : Type) where
  response : Response
  sent : List Mail
  sanitizedData : Option SanitizedData
  logged : Option ε

/-- The text of the generic failure rendering. -/
def genericError : String :=
  "Hubo un error al enviar el mensaje. Por favor, intenta nuevamente o contáctame directamente por email."

/-- The handler of `POST /contact`: the `try` block and its `catch`, which logs the
error and renders the generic failure with `req.body` as form data. The body is the
object the body parsers leave in `req.body`, read through its four properties. -/
def postContact {ε : Type} (env : Env) (fecha : JSString) (relay : Relay ε)
    (body : ContactData) : HandlerRun ε :=
  match postContactTry env fecha relay body with
  | (.ok response, sent, sanitizedData) =>
    { response := response, sent := sent, sanitizedData := sanitizedData, logged := none }
  | (.error e, sent, sanitizedData) =>
    { response := renderIndex
        { title := pageTitle, success := none, error := some genericError,
          formData := some body, errors := none },
      sent := sent, sanitizedData := sanitizedData, logged := some e }

/-- The `sanitizedData` object the handler builds from a request body. -/
def sanitizedOf (body : ContactData) : SanitizedData :=
  { name := sanitizeInput body.name, email := sanitizeInput body.email,
    subject := sanitizeInput body.subject, message := sanitizeInput body.message }

/-- The rendering of the `catch` block for a request body. -/
def failureResponse (body : ContactData) : Response :=
  renderIndex
    { title := pageTitle, success := none, error := some genericError,
      formData := some body, errors := none }

/-- The rendering of a delivered submission. -/
def successResponse : Response :=
  renderIndex
    { title := pageTitle,
      success := some "¡Mensaje enviado correctamente! Te responderé pronto.",
      error := none, formData := none, errors := none }

/-- The `ok` attribute of a fetch response: the status lies in the range 200-299. It is
what the submit handler of `src/main.js` (line 297) tests. -/
def Response.ok (r : Response) : Bool :=
  decide (200 ≤ r.status) && decide (r.status ≤ 299)

/-! ## Browser-side validators

Two scripts carry a `validators` object for the contact form: `src/main.js`
(lines 187-217) and `src/public/js/main.js` (lines 116-143), the script under the
directory `express.static` serves. A validator receives `input.value`, always a string,
and returns the empty string when it accepts. -/

/-- The validator `validators.name` of `src/main.js` (lines 188-194). -/
def ClientMain.validators.name (value : JSString) : String :=
  if !(JSValue.string (trim value)).toBoolean then "El nombre es requerido"
  else if (trim value).length < 2 then "El nombre debe tener al menos 2 caracteres"
  else if (trim value).length > 100 then "El nombre es demasiado largo"
  else if !nameRegex.test (trim value) then "El nombre contiene caracteres inválidos"
  else ""

/-- The validator `validators.email` of `src/main.js` (lines 196-202): the pattern is
tested on the value as typed, not on its trimmed form. -/
def ClientMain.validators.email (value : JSString) : String :=
  if !(JSValue.string (trim value)).toBoolean then "El email es requerido"
  else if !emailRegex.test value then "Email inválido"
  else if (trim value).length > 254 then "Email demasiado largo"
  else ""

/-- The validator `validators.subject` of `src/main.js` (lines 204-209). -/
def ClientMain.validators.subject (value : JSString) : String :=
  if !(JSValue.string (trim value)).toBoolean then "El asunto es requerido"
  else if (trim value).length < 3 then "El asunto debe tener al menos 3 caracteres"
  else if (trim value).length > 200 then "El asunto es demasiado largo"
  else ""

/-- The validator `validators.message` of `src/main.js` (lines 211-216). -/
def ClientMain.validators.message (value : JSString) : String :=
  if !(JSValue.string (trim value)).toBoolean then "El mensaje es requerido"
  else if (trim value).length < 10 then "El mensaje debe tener al menos 10 caracteres"
  else if (trim value).length > 5000 then "El mensaje es demasiado largo"
  else ""

/-- The validator `validators.name` of `src/public/js/main.js` (lines 117-121). -/
def ClientPublic.validators.name (value : JSString) : String :=
  if !(JSValue.string (trim value)).toBoolean then "El nombre es requerido"
  else if (trim value).length < 2 then "El nombre debe tener al menos 2 caracteres"
  else ""

/-- The validator `validators.email` of `src/public/js/main.js` (lines 123-128). -/
def ClientPublic.validators.email (value : JSString) : String :=
  if !(JSValue.string (trim value)).toBoolean then "El email es requerido"
  else if !emailRegex.test value then "Email inválido"
  else ""

/-- The validator `validators.subject` of `src/public/js/main.js` (lines 130-134). -/
def ClientPublic.validators.subject (value : JSString) : String :=
  if !(JSValue.string (trim value)).toBoolean then "El asunto es requerido"
  else if (trim value).length < 3 then "El asunto debe tener al menos 3 caracteres"
  else ""

/-- The validator `validators.message` of `src/public/js/main.js` (lines 136-140). -/
def ClientPublic.validators.message (value : JSString) : String :=
  if !(JSValue.string (trim value)).toBoolean then "El mensaje es requerido"
  else if (trim value).length < 10 then "El mensaje debe tener al menos 10 caracteres"
  else ""

/-! ## Vocabulary of the specification and of the proofs -/

/-- An ASCII letter of either case. -/
def isAsciiLetter (c : Nat) : Prop := (65 ≤ c ∧ c ≤ 90) ∨ (97 ≤ c ∧ c ≤ 122)

/-- The accented letters named by the name rule, in both cases. -/
def accentedLetters : JSString := jsStr "áéíóúñüÁÉÍÓÚÑÜ"

/-- The characters the name rule admits: letters, the listed accented letters and
white space. -/
def isNameChar (c : Nat) : Prop :=
  isAsciiLetter c ∨ c ∈ accentedLetters ∨ isWhiteSpace c = true

/-- Canonical (uppercase) forms of the members of the name class. -/
def nameClassUpper : CharClass :=
  { ranges := [(65, 90), (193, 193), (201, 201), (205, 205), (211, 211), (218, 218),
      (209, 209), (220, 220)] ++ whiteSpaceRanges,
    negated := false }

/-- A string is trimmed when neither its first nor its last code unit is white space. -/
def Trimmed (t : JSString) : Prop :=
  (∀ c w, t = c :: w → isWhiteSpace c = false) ∧
  (∀ w c, t = w ++ [c] → isWhiteSpace c = false)

/-- The `local@domain.tld` shape in the words of the specification: no white space,
exactly one `@`, a non-empty part before it, and in the part after it a `.` with a
non-empty segment on each side. -/
def emailShape (t : JSString) : Prop :=
  (∀ c ∈ t, isWhiteSpace c = false) ∧ t.count 64 = 1 ∧
  ∃ loc dom, t = loc ++ 64 :: dom ∧ loc ≠ [] ∧
    ∃ d1 d2, dom = d1 ++ 46 :: d2 ∧ d1 ≠ [] ∧ d2 ≠ []

/-- Removal of every `<` and `>` code unit, in the words of the specification. -/
def stripAngles (s : JSString) : JSString :=
  s.filter (fun c => !(c == 60 || c == 62))

/-! ## Character classes -/

theorem isWhiteSpace_iff (c : Nat) :
    isWhiteSpace c = true ↔
      (9 ≤ c ∧ c ≤ 13) ∨ c = 32 ∨ c = 160 ∨ c = 5760 ∨ (8192 ≤ c ∧ c ≤ 8202) ∨
      (8232 ≤ c ∧ c ≤ 8233) ∨ c = 8239 ∨ c = 8287 ∨ c = 12288 ∨ c = 65279 := by
  simp only [isWhiteSpace, inRanges, whiteSpaceRanges, List.any_cons, List.any_nil,
    Bool.or_eq_true, Bool.and_eq_true, decide_eq_true_eq, Bool.or_false]
  omega

theorem mem_members (k : CharClass) (c : Nat) :
    c ∈ k.members ↔ ∃ r ∈ k.ranges, r.1 ≤ c ∧ c ≤ r.2 := by
  simp only [CharClass.members, List.mem_flatMap, List.mem_range']
  constructor
  · rintro ⟨r, hr, i, hi, rfl⟩
    exact ⟨r, hr, by omega, by omega⟩
  · rintro ⟨r, hr, h1, h2⟩
    exact ⟨r, hr, c - r.1, by omega, by omega⟩

theorem mem_members_iff_inRanges (k : CharClass) (c : Nat) :
    c ∈ k.members ↔ inRanges k.ranges c = true := by
  rw [mem_members]
  simp [inRanges]

theorem test_exact (k : CharClass) (c : Nat) :
    k.test false c = (if k.negated then !inRanges k.ranges c else inRanges k.ranges c) := by
  have h : k.members.any (fun a => a == c) = inRanges k.ranges c := by
    rw [Bool.eq_iff_iff, ← mem_members_iff_inRanges]
    simp
  simp only [CharClass.test, canonicalize, Bool.false_eq_true, if_false, h]

theorem accentedLetters_eq :
    accentedLetters = [225, 233, 237, 243, 250, 241, 252, 193, 201, 205, 211, 218, 209, 220] := by
  decide

theorem nameClass_canon :
    nameClass.members.map (canonicalize true) = nameClassUpper.members := by
  decide

theorem nameClass_test (c : Nat) : nameClass.test true c = true ↔ isNameChar c := by
  have h : nameClass.members.any (fun a => canonicalize true a == canonicalize true c) = true ↔
      canonicalize true c ∈ nameClassUpper.members := by
    rw [← nameClass_canon]
    simp only [List.any_eq_true, List.mem_map, beq_iff_eq]
  have hneg : nameClass.negated = false := rfl
  simp only [CharClass.test, hneg, Bool.false_eq_true, if_false]
  rw [h, mem_members_iff_inRanges]
  simp only [isNameChar, isAsciiLetter, accentedLetters_eq, isWhiteSpace_iff, nameClassUpper,
    whiteSpaceRanges, inRanges, List.cons_append, List.nil_append, List.mem_cons,
    List.mem_nil_iff, or_false, canonicalize, toUpperUnit, if_true, List.any_cons, List.any_nil,
    Bool.or_eq_true, Bool.and_eq_true, decide_eq_true_eq, Bool.or_false]
  split_ifs <;> omega

/-! ## Pattern matching -/

theorem matchAtoms_nil (ic : Bool) (w : JSString) : matchAtoms ic [] w = true ↔ w = [] := by
  cases w <;> simp [matchAtoms]

theorem matchAtoms_one (ic : Bool) (k : CharClass) (rs : List Atom) (w : JSString) :
    matchAtoms ic (Atom.one k :: rs) w = true ↔
      ∃ c b, w = c :: b ∧ k.test ic c = true ∧ matchAtoms ic rs b = true := by
  cases w with
  | nil => simp [matchAtoms]
  | cons c w =>
    simp only [matchAtoms, Bool.and_eq_true, List.cons.injEq]
    constructor
    · rintro ⟨h1, h2⟩
      exact ⟨c, w, ⟨rfl, rfl⟩, h1, h2⟩
    · rintro ⟨c1, b, ⟨rfl, rfl⟩, h1, h2⟩
      exact ⟨h1, h2⟩

theorem matchAtoms_plus (ic : Bool) (k : CharClass) (rs : List Atom) (w : JSString) :
    matchAtoms ic (Atom.plus k :: rs) w = true ↔
      ∃ a b, w = a ++ b ∧ a ≠ [] ∧ (∀ x ∈ a, k.test ic x = true) ∧
        matchAtoms ic rs b = true := by
  induction w with
  | nil =>
    simp only [matchAtoms, Bool.false_eq_true, false_iff]
    rintro ⟨a, b, hab, ha, -⟩
    cases a with
    | nil => exact ha rfl
    | cons x a => simp at hab
  | cons c w ih =>
    simp only [matchAtoms, Bool.and_eq_true, Bool.or_eq_true, ih]
    constructor
    · rintro ⟨hc, h | h⟩
      · obtain ⟨a, b, rfl, -, hall, hb⟩ := h
        refine ⟨c :: a, b, rfl, by simp, ?_, hb⟩
        intro x hx
        rcases List.mem_cons.mp hx with rfl | hx
        · exact hc
        · exact hall x hx
      · exact ⟨[c], w, rfl, by simp, by simpa using hc, h⟩
    · rintro ⟨a, b, hab, ha, hall, hb⟩
      cases a with
      | nil => exact absurd rfl ha
      | cons x a =>
        simp only [List.cons_append, List.cons.injEq] at hab
        obtain ⟨rfl, rfl⟩ := hab
        refine ⟨hall c (by simp), ?_⟩
        cases a with
        | nil => exact Or.inr (by simpa using hb)
        | cons y a =>
          exact Or.inl ⟨y :: a, b, rfl, by simp, fun z hz => hall z (by simp [hz]), hb⟩

theorem nameRegex_test (t : JSString) :
    nameRegex.test t = true ↔ t ≠ [] ∧ ∀ c ∈ t, isNameChar c := by
  simp only [Regex.test, nameRegex, matchAtoms_plus, matchAtoms_nil, nameClass_test]
  constructor
  · rintro ⟨a, b, rfl, ha, hall, rfl⟩
    simpa using ⟨ha, hall⟩
  · rintro ⟨ht, hall⟩
    exact ⟨t, [], by simp, ht, hall, rfl⟩

/-! ## Trimming -/

theorem trim_eq (s : JSString) :
    trim s = (s.dropWhile isWhiteSpace).rdropWhile isWhiteSpace := rfl

theorem head_not_ws_of_dropWhile (s : JSString) (c : Nat) (w : JSString)
    (h : s.dropWhile isWhiteSpace = c :: w) : isWhiteSpace c = false := by
  induction s with
  | nil => simp at h
  | cons x s ih =>
    rw [List.dropWhile_cons] at h
    split at h
    · exact ih h
    · simp only [List.cons.injEq] at h
      obtain ⟨rfl, -⟩ := h
      simpa using ‹¬isWhiteSpace x = true›

theorem trim_of_trimmed (t : JSString) (h : Trimmed t) : trim t = t := by
  have h1 : t.dropWhile isWhiteSpace = t := by
    cases t with
    | nil => rfl
    | cons c w => simp [List.dropWhile_cons, h.1 c w rfl]
  rw [trim_eq, h1]
  rcases List.eq_nil_or_concat t with rfl | ⟨w, c, rfl⟩
  · simp
  · rw [List.concat_eq_append] at h ⊢
    rw [List.rdropWhile_concat_neg]
    simp [h.2 w c rfl]

theorem trimmed_trim (s : JSString) : Trimmed (trim s) := by
  rw [trim_eq]
  have hp : (s.dropWhile isWhiteSpace).rdropWhile isWhiteSpace <+: s.dropWhile isWhiteSpace :=
    List.rdropWhile_prefix _ _
  constructor
  · intro c w hcw
    rw [hcw] at hp
    obtain ⟨r, hr⟩ := hp
    exact head_not_ws_of_dropWhile s c (w ++ r) (by simpa using hr.symm)
  · intro w c hwc
    have hne : (s.dropWhile isWhiteSpace).rdropWhile isWhiteSpace ≠ [] := by
      rw [hwc]; simp
    have := List.rdropWhile_last_not isWhiteSpace (s.dropWhile isWhiteSpace) hne
    simp only [hwc, List.getLast_append_singleton] at this
    simpa using this

theorem trim_trim (s : JSString) : trim (trim s) = trim s :=
  trim_of_trimmed _ (trimmed_trim s)

theorem trim_of_no_ws (t : JSString) (h : ∀ c ∈ t, isWhiteSpace c = false) : trim t = t :=
  trim_of_trimmed t ⟨fun c w e => h c (by simp [e]), fun w c e => h c (by simp [e])⟩

theorem mem_trim (s : JSString) (c : Nat) (h : c ∈ trim s) : c ∈ s := by
  rw [trim_eq] at h
  exact (List.dropWhile_sublist _).subset ((List.rdropWhile_prefix _ _).sublist.subset h)

theorem trim_length_le (s : JSString) : (trim s).length ≤ s.length := by
  rw [trim_eq]
  exact ((List.rdropWhile_prefix _ _).sublist.trans (List.dropWhile_sublist _)).length_le

/-! ## Validators on strings -/

theorem required_guard (v : JSString) :
    (!(JSValue.string v).toBoolean || !(JSValue.string v).isString) = decide (v.length = 0) := by
  cases v <;> simp [JSValue.toBoolean, JSValue.isString]

theorem name_accepts_iff (v : JSString) :
    validators.name (.string v) = none ↔
      2 ≤ (trim v).length ∧ (trim v).length ≤ 100 ∧ ∀ c ∈ trim v, isNameChar c := by
  have hl := trim_length_le v
  have hre := nameRegex_test (trim v)
  simp only [validators.name, required_guard, JSValue.units, decide_eq_true_eq]
  split_ifs with h1 h2 h3 h4
  · simp; omega
  · simp; omega
  · simp; omega
  · simp only [reduceCtorEq, false_iff]
    intro ⟨_, _, hall⟩
    have hne : trim v ≠ [] := by
      intro h; rw [h] at h2; simp at h2
    rw [hre.mpr ⟨hne, hall⟩] at h4
    simp at h4
  · simp only [true_iff]
    refine ⟨by omega, by omega, ?_⟩
    have : nameRegex.test (trim v) = true := by simpa using h4
    exact (hre.mp this).2

theorem subject_accepts_iff (v : JSString) :
    validators.subject (.string v) = none ↔ 3 ≤ (trim v).length ∧ (trim v).length ≤ 200 := by
  have hl := trim_length_le v
  simp only [validators.subject, required_guard, JSValue.units, decide_eq_true_eq]
  split_ifs <;> simp <;> omega

theorem message_accepts_iff (v : JSString) :
    validators.message (.string v) = none ↔
      10 ≤ (trim v).length ∧ (trim v).length ≤ 5000 := by
  have hl := trim_length_le v
  simp only [validators.message, required_guard, JSValue.units, decide_eq_true_eq]
  split_ifs <;> simp <;> omega

/-! ## The email pattern -/

theorem inRanges_append (r1 r2 : List (Nat × Nat)) (c : Nat) :
    inRanges (r1 ++ r2) c = (inRanges r1 c || inRanges r2 c) := by
  simp [inRanges, List.any_append]

theorem notSpaceAt_test (c : Nat) :
    notSpaceAt.test false c = true ↔ isWhiteSpace c = false ∧ c ≠ 64 := by
  have hws : inRanges whiteSpaceRanges c = isWhiteSpace c := rfl
  have h64 : inRanges [(64, 64)] c = decide (c = 64) := by
    rw [Bool.eq_iff_iff]
    simp [inRanges]
    omega
  rw [test_exact]
  simp only [notSpaceAt, if_true, inRanges_append, hws, h64]
  cases isWhiteSpace c <;> simp

theorem single_test (a c : Nat) :
    (CharClass.mk [(a, a)] false).test false c = true ↔ c = a := by
  rw [test_exact]
  simp [inRanges]
  omega

theorem angleClass_test (c : Nat) : angleClass.test false c = true ↔ c = 60 ∨ c = 62 := by
  rw [test_exact]
  simp [angleClass, inRanges]
  omega

theorem emailRegex_test (t : JSString) :
    emailRegex.test t = true ↔
      ∃ a b c, t = a ++ 64 :: (b ++ 46 :: c) ∧ a ≠ [] ∧ b ≠ [] ∧ c ≠ [] ∧
        (∀ x ∈ a ++ b ++ c, isWhiteSpace x = false ∧ x ≠ 64) := by
  simp only [Regex.test, emailRegex, matchAtoms_plus, matchAtoms_one, matchAtoms_nil,
    notSpaceAt_test, single_test]
  constructor
  · rintro ⟨a, _, rfl, ha, hall_a, _, _, rfl, rfl, b, _, rfl, hb, hall_b, _, _, rfl, rfl, c, _,
      rfl, hc, hall_c, rfl⟩
    refine ⟨a, b, c, by simp, ha, hb, hc, ?_⟩
    intro x hx
    simp only [List.mem_append] at hx
    rcases hx with (hx | hx) | hx
    · exact hall_a x hx
    · exact hall_b x hx
    · exact hall_c x hx
  · rintro ⟨a, b, c, rfl, ha, hb, hc, hall⟩
    refine ⟨a, _, rfl, ha, fun x hx => hall x (by simp [hx]), 64, _, rfl, rfl, b, _, rfl, hb,
      fun x hx => hall x (by simp [hx]), 46, _, rfl, rfl, c, [], by simp, hc,
      fun x hx => hall x (by simp [hx]), rfl⟩

theorem emailRegex_test_iff_shape (t : JSString) :
    emailRegex.test t = true ↔ emailShape t := by
  rw [emailRegex_test]
  constructor
  · rintro ⟨a, b, c, rfl, ha, hb, hc, hall⟩
    have h64 : ∀ l : JSString, (∀ x ∈ l, isWhiteSpace x = false ∧ x ≠ 64) → l.count 64 = 0 := by
      intro l hl
      rw [List.count_eq_zero]
      intro hmem
      exact (hl 64 hmem).2 rfl
    refine ⟨?_, ?_, a, b ++ 46 :: c, rfl, ha, b, c, rfl, hb, hc⟩
    · intro x hx
      simp only [List.mem_append, List.mem_cons] at hx
      rcases hx with hx | rfl | hx | rfl | hx
      · exact (hall x (by simp [hx])).1
      · decide
      · exact (hall x (by simp [hx])).1
      · decide
      · exact (hall x (by simp [hx])).1
    · simp only [List.count_append, List.count_cons, beq_self_eq_true, if_true]
      rw [h64 a (fun x hx => hall x (by simp [hx])), h64 b (fun x hx => hall x (by simp [hx])),
        h64 c (fun x hx => hall x (by simp [hx]))]
      simp
  · rintro ⟨hws, hcount, loc, dom, rfl, hloc, d1, d2, rfl, hd1, hd2⟩
    refine ⟨loc, d1, d2, rfl, hloc, hd1, hd2, ?_⟩
    simp only [List.count_append, List.count_cons, beq_self_eq_true, if_true] at hcount
    have hz : loc.count 64 = 0 ∧ d1.count 64 = 0 ∧ d2.count 64 = 0 := by
      have : (if (46 : Nat) == 64 then 1 else 0) = 0 := by decide
      omega
    intro x hx
    simp only [List.mem_append] at hx
    refine ⟨hws x ?_, ?_⟩
    · simp only [List.mem_append, List.mem_cons]
      rcases hx with (hx | hx) | hx
      · exact Or.inl hx
      · exact Or.inr (Or.inr (Or.inl hx))
      · exact Or.inr (Or.inr (Or.inr (Or.inr hx)))
    · rintro rfl
      rcases hx with (hx | hx) | hx
      · exact (List.count_eq_zero.mp hz.1) hx
      · exact (List.count_eq_zero.mp hz.2.1) hx
      · exact (List.count_eq_zero.mp hz.2.2) hx

theorem email_accepts_iff (v : JSString) :
    validators.email (.string v) = none ↔
      (trim v).length ≤ 254 ∧ emailShape (trim v) := by
  have hl := trim_length_le v
  have hre := emailRegex_test_iff_shape (trim v)
  simp only [validators.email, required_guard, JSValue.units, decide_eq_true_eq]
  split_ifs with h1 h2 h3
  · simp only [reduceCtorEq, false_iff]
    rintro ⟨-, hs⟩
    have h0 : trim v = [] := List.length_eq_zero.mp (by omega)
    rw [h0] at hs
    obtain ⟨-, hc, -⟩ := hs
    simp at hc
  · simp only [reduceCtorEq, false_iff]
    rintro ⟨-, hs⟩
    rw [hre.mpr hs] at h2
    simp at h2
  · simp; omega
  · simp only [true_iff]
    refine ⟨by omega, hre.mp ?_⟩
    simpa using h2

/-! ## Aggregation -/

theorem validators_message_nonempty (f : Field) (v : JSValue) (m : String)
    (h : validators f v = some m) : (m != "") = true := by
  cases f <;>
    simp only [validators, validators.name, validators.email, validators.subject,
      validators.message] at h <;>
    split_ifs at h <;>
    (simp only [Option.some.injEq] at h; subst h; decide)

theorem errorTruthy_validators (f : Field) (v : JSValue) :
    errorTruthy (validators f v) = (validators f v).isSome := by
  rcases h : validators f v with _ | m
  · rfl
  · simpa [errorTruthy] using validators_message_nonempty f v m h

theorem errors_eq (data : ContactData) :
    (validateContactForm data).errors =
      validatorKeys.filterMap
        (fun f => (validators f (data.get f)).map (fun m => (f, m))) := by
  simp only [validateContactForm, validatorKeys, List.foldl, validateStep,
    errorTruthy_validators]
  rcases h1 : validators Field.name (data.get Field.name) with _ | m1 <;>
  rcases h2 : validators Field.email (data.get Field.email) with _ | m2 <;>
  rcases h3 : validators Field.subject (data.get Field.subject) with _ | m3 <;>
  rcases h4 : validators Field.message (data.get Field.message) with _ | m4 <;>
  simp [Errors.set, h1, h2, h3, h4]

theorem keys_eq (data : ContactData) :
    (validateContactForm data).errors.keys =
      validatorKeys.filter (fun f => (validators f (data.get f)).isSome) := by
  rw [errors_eq]
  simp only [validatorKeys, Errors.keys]
  rcases h1 : validators Field.name (data.get Field.name) with _ | m1 <;>
  rcases h2 : validators Field.email (data.get Field.email) with _ | m2 <;>
  rcases h3 : validators Field.subject (data.get Field.subject) with _ | m3 <;>
  rcases h4 : validators Field.message (data.get Field.message) with _ | m4 <;>
  simp [h1, h2, h3, h4]

theorem mem_keys_iff (data : ContactData) (f : Field) :
    f ∈ (validateContactForm data).errors.keys ↔ validators f (data.get f) ≠ none := by
  rw [keys_eq]
  simp only [List.mem_filter, validatorKeys, Option.isSome_iff_ne_none]
  constructor
  · exact fun h => h.2
  · intro h
    refine ⟨?_, h⟩
    cases f <;> simp

theorem isValid_iff (data : ContactData) :
    (validateContactForm data).isValid = true ↔
      ∀ f, validators f (data.get f) = none := by
  have hk := mem_keys_iff data
  have : (validateContactForm data).isValid = true ↔
      (validateContactForm data).errors.keys = [] := by
    simp [validateContactForm]
  rw [this]
  constructor
  · intro h f
    by_contra hne
    have := (hk f).mpr hne
    rw [h] at this
    simp at this
  · intro h
    rw [List.eq_nil_iff_forall_not_mem]
    intro f hf
    exact (hk f).mp hf (h f)

/-! ## Sanitization -/

theorem replaceAll_angle (s : JSString) : replaceAll angleClass [] s = stripAngles s := by
  induction s with
  | nil => rfl
  | cons c s ih =>
    have hc := angleClass_test c
    simp only [replaceAll, List.flatMap_cons, stripAngles, List.filter_cons] at ih ⊢
    rw [ih]
    by_cases h : angleClass.test false c = true
    · have := hc.mp h
      rcases this with rfl | rfl <;> simp [h]
    · have hn : ¬ (c = 60 ∨ c = 62) := fun hh => h (hc.mpr hh)
      simp only [not_or] at hn
      simp [h, hn.1, hn.2]

theorem substring_zero (s : JSString) (n : Nat) : substring s 0 n = s.take n := by
  simp only [substring, Nat.zero_min, Nat.zero_le, min_eq_left, max_eq_right,
    List.drop_zero, Nat.sub_zero]
  rcases Nat.le_total n s.length with h | h
  · rw [min_eq_left h]
  · rw [min_eq_right h, List.take_of_length_le h, List.take_of_length_le le_rfl]

theorem sanitizeInput_string (s : JSString) :
    sanitizeInput (.string s) = (stripAngles (trim s)).take 5000 := by
  simp [sanitizeInput, JSValue.isString, JSValue.units, replaceAll_angle, substring_zero]

theorem errors_get_eq (data : ContactData) (f : Field) :
    (validateContactForm data).errors.get f = validators f (data.get f) := by
  rw [errors_eq]
  simp only [validatorKeys, Errors.get]
  rcases h1 : validators Field.name (data.get Field.name) with _ | m1 <;>
  rcases h2 : validators Field.email (data.get Field.email) with _ | m2 <;>
  rcases h3 : validators Field.subject (data.get Field.subject) with _ | m3 <;>
  rcases h4 : validators Field.message (data.get Field.message) with _ | m4 <;>
  cases f <;>
  simp [h1, h2, h3, h4, List.find?]

theorem stripAngles_length_le (s : JSString) : (stripAngles s).length ≤ s.length :=
  List.length_filter_le _ _

theorem not_mem_stripAngles (s : JSString) (c : Nat) (h : c = 60 ∨ c = 62) :
    c ∉ stripAngles s := by
  intro hc
  simp only [stripAngles, List.mem_filter] at hc
  rcases h with rfl | rfl <;> simp at hc

theorem stripAngles_of_no_angle (s : JSString) (h : ∀ c ∈ s, c ≠ 60 ∧ c ≠ 62) :
    stripAngles s = s := by
  simp only [stripAngles, List.filter_eq_self]
  intro c hc
  simp [(h c hc).1, (h c hc).2]

theorem sanitize_twice (v : JSValue) :
    sanitizeInput (.string (sanitizeInput v)) = trim (sanitizeInput v) := by
  rw [sanitizeInput_string]
  have hlen : (sanitizeInput v).length ≤ 5000 := by
    cases v <;> simp [sanitizeInput, JSValue.isString, JSValue.units, replaceAll_angle,
      substring_zero]
  have hno : ∀ c ∈ sanitizeInput v, c ≠ 60 ∧ c ≠ 62 := by
    intro c hc
    cases v with
    | string s =>
      rw [sanitizeInput_string] at hc
      have hc2 := List.mem_of_mem_take hc
      exact ⟨fun h => not_mem_stripAngles _ c (Or.inl h) hc2,
        fun h => not_mem_stripAngles _ c (Or.inr h) hc2⟩
    | _ => simp [sanitizeInput, JSValue.isString] at hc
  rw [stripAngles_of_no_angle _ (fun c hc => hno c (mem_trim _ c hc))]
  exact List.take_of_length_le (le_trans (trim_length_le _) hlen)

theorem validators_string (f : Field) (v : JSValue) (h : validators f v = none) :
    ∃ s, v = .string s := by
  cases v with
  | string s => exact ⟨s, rfl⟩
  | _ =>
    cases f <;>
      simp [validators, validators.name, validators.email, validators.subject,
        validators.message, JSValue.toBoolean, JSValue.isString] at h

theorem validators_trim (f : Field) (s : JSString) :
    validators f (.string (trim s)) = none ↔ validators f (.string s) = none := by
  cases f <;>
    simp only [validators, name_accepts_iff, email_accepts_iff, subject_accepts_iff,
      message_accepts_iff, trim_trim]

theorem accepted_length (f : Field) (s : JSString) (h : validators f (.string s) = none) :
    (trim s).length ≤ 5000 := by
  cases f <;> simp only [validators] at h
  · have := (name_accepts_iff s).mp h; omega
  · have := (email_accepts_iff s).mp h; omega
  · have := (subject_accepts_iff s).mp h; omega
  · have := (message_accepts_iff s).mp h; omega

theorem sanitize_of_no_angle (f : Field) (s : JSString) (h : validators f (.string s) = none)
    (hno : ∀ c ∈ trim s, c ≠ 60 ∧ c ≠ 62) : sanitizeInput (.string s) = trim s := by
  rw [sanitizeInput_string, stripAngles_of_no_angle _ hno]
  exact List.take_of_length_le (accepted_length f s h)

theorem nameChar_not_angle (c : Nat) (h : isNameChar c) : c ≠ 60 ∧ c ≠ 62 := by
  simp only [isNameChar, isAsciiLetter, accentedLetters_eq, isWhiteSpace_iff, List.mem_cons,
    List.mem_nil_iff, or_false] at h
  omega

theorem sanitize_name (s : JSString) (h : validators.name (.string s) = none) :
    sanitizeInput (.string s) = trim s :=
  sanitize_of_no_angle Field.name s h
    (fun c hc => nameChar_not_angle c (((name_accepts_iff s).mp h).2.2 c hc))

theorem sanitize_email_trimmed (s : JSString) (h : validators.email (.string s) = none) :
    Trimmed (sanitizeInput (.string s)) := by
  have hws : ∀ c ∈ sanitizeInput (.string s), isWhiteSpace c = false := by
    intro c hc
    rw [sanitizeInput_string] at hc
    have hc2 : c ∈ trim s := (List.filter_sublist _).subset (List.mem_of_mem_take hc)
    exact ((email_accepts_iff s).mp h).2.1 c hc2
  exact ⟨fun c w e => hws c (by simp [e]), fun w c e => hws c (by simp [e])⟩

theorem isValid_fields (data : ContactData) (h : (validateContactForm data).isValid = true)
    (f : Field) : ∃ s, data.get f = .string s ∧ validators f (.string s) = none := by
  have hf := (isValid_iff data).mp h f
  obtain ⟨s, hs⟩ := validators_string f _ hf
  exact ⟨s, hs, hs ▸ hf⟩

/-! ## Claims on validation -/

/-- C1: the errors object returned by `validateContactForm` has an entry for a field
exactly when that field's validator returns a non-null message (and the entry is that
message), so every violating field is reported and no compliant one is; for the
submission name "A", email "x@y.com", subject "ok subj", message "short" the keys of
the errors object are exactly name and message. -/
theorem validateContactForm_entry_iff_violation :
    (∀ (data : ContactData) (f : Field),
      (f ∈ (validateContactForm data).errors.keys ↔ validators f (data.get f) ≠ none) ∧
      (validateContactForm data).errors.get f = validators f (data.get f)) ∧
    (validateContactForm
      { name := .string (jsStr "A"), email := .string (jsStr "x@y.com"),
        subject := .string (jsStr "ok subj"), message := .string (jsStr "short") }).errors.keys
      = [Field.name, Field.message] :=
  ⟨fun data f => ⟨mem_keys_iff data f, errors_get_eq data f⟩, by decide⟩

/-- C2: `validateContactForm(data).isValid` is true exactly when the four validators
all return null for their field, which is exactly when the errors object is empty. -/
theorem validateContactForm_isValid_iff (data : ContactData) :
    ((validateContactForm data).isValid = true ↔
      validators.name data.name = none ∧ validators.email data.email = none ∧
      validators.subject data.subject = none ∧ validators.message data.message = none) ∧
    ((validateContactForm data).isValid = true ↔ (validateContactForm data).errors = []) := by
  constructor
  · rw [isValid_iff]
    constructor
    · intro h
      exact ⟨h Field.name, h Field.email, h Field.subject, h Field.message⟩
    · rintro ⟨h1, h2, h3, h4⟩ f
      cases f
      · exact h1
      · exact h2
      · exact h3
      · exact h4
  · simp [validateContactForm, Errors.keys]

/-- C3: `validators.name` accepts a string exactly when its trimmed form has between 2
and 100 code units, each an ASCII letter, one of the accented letters á é í ó ú ñ ü
(either case) or white space; every other string is rejected with a non-empty message. -/
theorem validators_name_accepts_iff (v : JSString) :
    (validators.name (.string v) = none ↔
      2 ≤ (trim v).length ∧ (trim v).length ≤ 100 ∧ ∀ c ∈ trim v, isNameChar c) ∧
    (¬ (2 ≤ (trim v).length ∧ (trim v).length ≤ 100 ∧ ∀ c ∈ trim v, isNameChar c) →
      ∃ m, validators.name (.string v) = some m ∧ m ≠ "") := by
  refine ⟨name_accepts_iff v, fun hn => ?_⟩
  rcases h : validators.name (.string v) with _ | m
  · exact absurd ((name_accepts_iff v).mp h) hn
  · refine ⟨m, rfl, ?_⟩
    simpa using validators_message_nonempty Field.name (.string v) m h

/-- C4: `validators.email` accepts a string exactly when its trimmed form has at most
254 code units and the shape local@domain.tld: no white space, exactly one at sign, a
non-empty part before it and, after it, a dot with a non-empty segment on each side. -/
theorem validators_email_accepts_iff (v : JSString) :
    validators.email (.string v) = none ↔
      (trim v).length ≤ 254 ∧ emailShape (trim v) :=
  email_accepts_iff v

/-- C5: `validators.subject` accepts a string exactly when the length of its trimmed
form lies between 3 and 200; lengths 2 and 201 are rejected, 3 and 200 accepted. -/
theorem validators_subject_accepts_iff :
    (∀ v : JSString, validators.subject (.string v) = none ↔
      3 ≤ (trim v).length ∧ (trim v).length ≤ 200) ∧
    validators.subject (.string (List.replicate 2 97)) ≠ none ∧
    validators.subject (.string (List.replicate 3 97)) = none ∧
    validators.subject (.string (List.replicate 200 97)) = none ∧
    validators.subject (.string (List.replicate 201 97)) ≠ none := by
  have ht : ∀ n, (trim (List.replicate n 97)).length = n := by
    intro n
    rw [trim_of_no_ws, List.length_replicate]
    intro c hc
    rw [List.eq_of_mem_replicate hc]
    decide
  refine ⟨subject_accepts_iff, ?_, ?_, ?_, ?_⟩ <;>
    simp only [ne_eq, subject_accepts_iff, ht] <;> omega

/-- C6: `validators.message` accepts a string exactly when the length of its trimmed
form lies between 10 and 5000; lengths 9 and 5001 are rejected, 10 and 5000 accepted. -/
theorem validators_message_accepts_iff :
    (∀ v : JSString, validators.message (.string v) = none ↔
      10 ≤ (trim v).length ∧ (trim v).length ≤ 5000) ∧
    validators.message (.string (List.replicate 9 97)) ≠ none ∧
    validators.message (.string (List.replicate 10 97)) = none ∧
    validators.message (.string (List.replicate 5000 97)) = none ∧
    validators.message (.string (List.replicate 5001 97)) ≠ none := by
  have ht : ∀ n, (trim (List.replicate n 97)).length = n := by
    intro n
    rw [trim_of_no_ws, List.length_replicate]
    intro c hc
    rw [List.eq_of_mem_replicate hc]
    decide
  refine ⟨message_accepts_iff, ?_, ?_, ?_, ?_⟩ <;>
    simp only [ne_eq, message_accepts_iff, ht] <;> omega

/-! ## Claims on sanitization -/

/-- C7: the string returned by `sanitizeInput` contains neither `<` nor `>`, and
`sanitizeInput("<b>hi</b>")` is "bhi/b". -/
theorem sanitizeInput_no_angle_brackets :
    (∀ s : JSString, 60 ∉ sanitizeInput (.string s) ∧ 62 ∉ sanitizeInput (.string s)) ∧
    sanitizeInput (.string (jsStr "<b>hi</b>")) = jsStr "bhi/b" := by
  refine ⟨fun s => ?_, by decide⟩
  rw [sanitizeInput_string]
  exact ⟨fun h => not_mem_stripAngles _ 60 (Or.inl rfl) (List.mem_of_mem_take h),
    fun h => not_mem_stripAngles _ 62 (Or.inr rfl) (List.mem_of_mem_take h)⟩

/-- C8: `sanitizeInput(s)` is the first 5000 code units of the trimmed input with every
`<` and `>` removed; its length is at most 5000, and exactly 5000 when that
bracket-free trimmed form is longer; a 6000-unit input without surrounding white space
or angle brackets yields exactly its first 5000 code units. -/
theorem sanitizeInput_truncates (s : JSString) :
    sanitizeInput (.string s) = (stripAngles (trim s)).take 5000 ∧
    (sanitizeInput (.string s)).length ≤ 5000 ∧
    (5000 < (stripAngles (trim s)).length → (sanitizeInput (.string s)).length = 5000) ∧
    (s.length = 6000 → trim s = s → stripAngles s = s →
      sanitizeInput (.string s) = s.take 5000 ∧ (sanitizeInput (.string s)).length = 5000) := by
  rw [sanitizeInput_string]
  refine ⟨rfl, ?_, ?_, ?_⟩
  · simp only [List.length_take]
    omega
  · intro h
    simp only [List.length_take]
    omega
  · intro hl ht hs
    rw [ht, hs]
    refine ⟨rfl, ?_⟩
    simp only [List.length_take]
    omega

/-- Witness for C8: 6000 letters `a` are cut to the first 5000. -/
theorem sanitizeInput_truncates_witness :
    sanitizeInput (.string (List.replicate 6000 97)) = List.replicate 5000 97 := by
  have hws : trim (List.replicate 6000 97) = List.replicate 6000 97 := by
    apply trim_of_no_ws
    intro c hc
    rw [List.eq_of_mem_replicate hc]
    decide
  have hs : stripAngles (List.replicate 6000 97) = List.replicate 6000 97 := by
    apply stripAngles_of_no_angle
    intro c hc
    rw [List.eq_of_mem_replicate hc]
    decide
  have h := ((sanitizeInput_truncates (List.replicate 6000 97)).2.2.2
    (List.length_replicate _ _) hws hs).1
  rw [h, List.take_replicate]
  rfl

/-- C9 (as stated, refuted): the submission name "Jo", email "jo@example.com", subject
"Hi there", message "< hello world >" is accepted, yet sanitizing its message twice
differs from sanitizing it once (the second pass trims the blanks the removed angle
brackets leave at both ends). -/
theorem sanitizeInput_not_idempotent_on_valid :
    (validateContactForm
      { name := .string (jsStr "Jo"), email := .string (jsStr "jo@example.com"),
        subject := .string (jsStr "Hi there"),
        message := .string (jsStr "< hello world >") }).isValid = true ∧
    sanitizeInput (.string (jsStr "< hello world >")) = jsStr " hello world " ∧
    sanitizeInput (.string (sanitizeInput (.string (jsStr "< hello world >"))))
      = jsStr "hello world" ∧
    sanitizeInput (.string (sanitizeInput (.string (jsStr "< hello world >"))))
      ≠ sanitizeInput (.string (jsStr "< hello world >")) := by
  decide

/-- C9 (amended): for every accepted submission `sanitizeInput` is idempotent on the
name and on the email; on every field a second pass equals the first pass trimmed; and
on every field that contains no `<` or `>` it is idempotent. -/
theorem sanitizeInput_idempotent_on_valid (data : ContactData)
    (h : (validateContactForm data).isValid = true) :
    sanitizeInput (.string (sanitizeInput data.name)) = sanitizeInput data.name ∧
    sanitizeInput (.string (sanitizeInput data.email)) = sanitizeInput data.email ∧
    (∀ f, sanitizeInput (.string (sanitizeInput (data.get f)))
      = trim (sanitizeInput (data.get f))) ∧
    (∀ f, (∀ c ∈ (data.get f).units, c ≠ 60 ∧ c ≠ 62) →
      sanitizeInput (.string (sanitizeInput (data.get f))) = sanitizeInput (data.get f)) := by
  refine ⟨?_, ?_, fun f => sanitize_twice _, ?_⟩
  · obtain ⟨s, hs, hv⟩ := isValid_fields data h Field.name
    simp only [ContactData.get] at hs
    rw [hs, sanitize_twice, sanitize_name s hv, trim_trim]
  · obtain ⟨s, hs, hv⟩ := isValid_fields data h Field.email
    simp only [ContactData.get] at hs
    rw [hs, sanitize_twice]
    exact trim_of_trimmed _ (sanitize_email_trimmed s hv)
  · intro f hno
    obtain ⟨s, hs, hv⟩ := isValid_fields data h f
    rw [hs] at hno ⊢
    rw [sanitize_twice,
      sanitize_of_no_angle f s hv (fun c hc => hno c (mem_trim s c hc)), trim_trim]

/-- Witness for C9 (amended): an accepted submission whose four sanitized fields are
unchanged by a second pass. -/
theorem sanitizeInput_idempotent_on_valid_witness :
    (validateContactForm
      { name := .string (jsStr "Jo"), email := .string (jsStr "<jo>@example.com"),
        subject := .string (jsStr "Hi there"),
        message := .string (jsStr "This is a long enough message.") }).isValid = true ∧
    sanitizeInput (.string (sanitizeInput (.string (jsStr "<jo>@example.com"))))
      = sanitizeInput (.string (jsStr "<jo>@example.com")) :=
  ⟨by decide,
    (sanitizeInput_idempotent_on_valid
      { name := .string (jsStr "Jo"), email := .string (jsStr "<jo>@example.com"),
        subject := .string (jsStr "Hi there"),
        message := .string (jsStr "This is a long enough message.") } (by decide)).2.1⟩

/-- C10 (as stated, refuted): the submission name "Jo", email "<>@b.c", subject
"Hi there", message "This is a long enough message." is accepted, yet its sanitized
email "@b.c" fails `validators.email`. -/
theorem sanitized_email_can_fail_validation :
    (validateContactForm
      { name := .string (jsStr "Jo"), email := .string (jsStr "<>@b.c"),
        subject := .string (jsStr "Hi there"),
        message := .string (jsStr "This is a long enough message.") }).isValid = true ∧
    sanitizeInput (.string (jsStr "<>@b.c")) = jsStr "@b.c" ∧
    validators.email (.string (sanitizeInput (.string (jsStr "<>@b.c"))))
      = some "Email inválido" := by
  decide

/-- C10 (amended): for every accepted submission each submitted field passes its
validator, the sanitized name passes `validators.name`, and for every field whose
submitted value contains no `<` or `>` the sanitized value passes that field's
validator. -/
theorem sanitized_fields_pass_validation (data : ContactData)
    (h : (validateContactForm data).isValid = true) :
    (∀ f, validators f (data.get f) = none) ∧
    validators.name (.string (sanitizeInput data.name)) = none ∧
    (∀ f, (∀ c ∈ (data.get f).units, c ≠ 60 ∧ c ≠ 62) →
      validators f (.string (sanitizeInput (data.get f))) = none) := by
  refine ⟨(isValid_iff data).mp h, ?_, ?_⟩
  · obtain ⟨s, hs, hv⟩ := isValid_fields data h Field.name
    simp only [ContactData.get] at hs
    rw [hs, sanitize_name s hv]
    exact (validators_trim Field.name s).mpr hv
  · intro f hno
    obtain ⟨s, hs, hv⟩ := isValid_fields data h f
    rw [hs] at hno ⊢
    rw [sanitize_of_no_angle f s hv (fun c hc => hno c (mem_trim s c hc))]
    exact (validators_trim f s).mpr hv

/-- Witness for C10 (amended): an accepted submission without angle brackets whose
sanitized email still passes `validators.email`. -/
theorem sanitized_fields_pass_validation_witness :
    (validateContactForm
      { name := .string (jsStr "Jo"), email := .string (jsStr " jo@example.com "),
        subject := .string (jsStr "Hi there"),
        message := .string (jsStr "This is a long enough message.") }).isValid = true ∧
    validators.email (.string (sanitizeInput (.string (jsStr " jo@example.com ")))) = none :=
  ⟨by decide,
    (sanitized_fields_pass_validation
      { name := .string (jsStr "Jo"), email := .string (jsStr " jo@example.com "),
        subject := .string (jsStr "Hi there"),
        message := .string (jsStr "This is a long enough message.") } (by decide)).2.2
      Field.email (by decide)⟩

/-! ## The handler, branch by branch -/

theorem postContact_invalid {ε : Type} (env : Env) (fecha : JSString) (relay : Relay ε)
    (body : ContactData) (h : (validateContactForm body).isValid = false) :
    postContact env fecha relay body =
      { response := renderIndex
          { title := pageTitle, success := none,
            error := some "Por favor, corrige los errores en el formulario",
            formData := some body, errors := some (validateContactForm body).errors },
        sent := [], sanitizedData := none, logged := none } := by
  cases body
  simp only [postContact, postContactTry] at h ⊢
  simp [h]

theorem postContact_first_fails {ε : Type} (env : Env) (fecha : JSString) (relay : Relay ε)
    (body : ContactData) (e : ε) (h : (validateContactForm body).isValid = true)
    (h1 : relay [] (mailToOwner env fecha (sanitizedOf body)) = some e) :
    postContact env fecha relay body =
      { response := failureResponse body, sent := [mailToOwner env fecha (sanitizedOf body)],
        sanitizedData := some (sanitizedOf body), logged := some e } := by
  cases body
  simp only [sanitizedOf] at h1
  simp only [postContact, postContactTry, failureResponse, sanitizedOf] at h ⊢
  simp [h, h1]

theorem postContact_second_fails {ε : Type} (env : Env) (fecha : JSString) (relay : Relay ε)
    (body : ContactData) (e : ε) (h : (validateContactForm body).isValid = true)
    (h1 : relay [] (mailToOwner env fecha (sanitizedOf body)) = none)
    (h2 : relay [mailToOwner env fecha (sanitizedOf body)]
      (mailToSender env (sanitizedOf body)) = some e) :
    postContact env fecha relay body =
      { response := failureResponse body,
        sent := [mailToOwner env fecha (sanitizedOf body), mailToSender env (sanitizedOf body)],
        sanitizedData := some (sanitizedOf body), logged := some e } := by
  cases body
  simp only [sanitizedOf] at h1 h2
  simp only [postContact, postContactTry, failureResponse, sanitizedOf] at h ⊢
  simp [h, h1, h2]

theorem postContact_both_accepted {ε : Type} (env : Env) (fecha : JSString) (relay : Relay ε)
    (body : ContactData) (h : (validateContactForm body).isValid = true)
    (h1 : relay [] (mailToOwner env fecha (sanitizedOf body)) = none)
    (h2 : relay [mailToOwner env fecha (sanitizedOf body)]
      (mailToSender env (sanitizedOf body)) = none) :
    postContact env fecha relay body =
      { response := successResponse,
        sent := [mailToOwner env fecha (sanitizedOf body), mailToSender env (sanitizedOf body)],
        sanitizedData := some (sanitizedOf body), logged := none } := by
  cases body
  simp only [sanitizedOf] at h1 h2
  simp only [postContact, postContactTry, successResponse, sanitizedOf] at h ⊢
  simp [h, h1, h2]


theorem postContact_valid_cases {ε : Type} (env : Env) (fecha : JSString) (relay : Relay ε)
    (body : ContactData) (h : (validateContactForm body).isValid = true) :
    (∃ e, postContact env fecha relay body =
      { response := failureResponse body, sent := [mailToOwner env fecha (sanitizedOf body)],
        sanitizedData := some (sanitizedOf body), logged := some e }) ∨
    (∃ e, postContact env fecha relay body =
      { response := failureResponse body,
        sent := [mailToOwner env fecha (sanitizedOf body), mailToSender env (sanitizedOf body)],
        sanitizedData := some (sanitizedOf body), logged := some e }) ∨
    postContact env fecha relay body =
      { response := successResponse,
        sent := [mailToOwner env fecha (sanitizedOf body), mailToSender env (sanitizedOf body)],
        sanitizedData := some (sanitizedOf body), logged := none } := by
  rcases h1 : relay [] (mailToOwner env fecha (sanitizedOf body)) with _ | e
  · rcases h2 : relay [mailToOwner env fecha (sanitizedOf body)]
        (mailToSender env (sanitizedOf body)) with _ | e
    · exact Or.inr (Or.inr (postContact_both_accepted env fecha relay body h h1 h2))
    · exact Or.inr (Or.inl ⟨e, postContact_second_fails env fecha relay body e h h1 h2⟩)
  · exact Or.inl ⟨e, postContact_first_fails env fecha relay body e h h1⟩

/-! ## Claims on the handler -/

/-- C11: for every submission that fails validation the handler makes no relay call and
builds no sanitized data, and its rendering carries the errors of `validateContactForm`
and the four submitted values unchanged, with no success message. -/
theorem postContact_rejected {ε : Type} (env : Env) (fecha : JSString) (relay : Relay ε)
    (body : ContactData) (h : (validateContactForm body).isValid = false) :
    (postContact env fecha relay body).sent = [] ∧
    (postContact env fecha relay body).sanitizedData = none ∧
    (postContact env fecha relay body).response.context.errors
      = some (validateContactForm body).errors ∧
    (postContact env fecha relay body).response.context.formData = some body ∧
    (postContact env fecha relay body).response.context.success = none := by
  rw [postContact_invalid env fecha relay body h]
  exact ⟨rfl, rfl, rfl, rfl, rfl⟩

/-- Witness for C11: the submission name "J", email "bad-email", subject "Hi", message
"short" fails validation with an entry for each of the four fields, and no message is
handed to the relay. -/
theorem postContact_rejected_witness :
    (validateContactForm
      { name := .string (jsStr "J"), email := .string (jsStr "bad-email"),
        subject := .string (jsStr "Hi"), message := .string (jsStr "short") }).errors.keys
      = [Field.name, Field.email, Field.subject, Field.message] ∧
    (postContact ⟨none, none⟩ [] (fun _ _ => (none : Option Unit))
      { name := .string (jsStr "J"), email := .string (jsStr "bad-email"),
        subject := .string (jsStr "Hi"), message := .string (jsStr "short") }).sent = [] :=
  ⟨by decide,
    (postContact_rejected ⟨none, none⟩ [] (fun _ _ => (none : Option Unit))
      { name := .string (jsStr "J"), email := .string (jsStr "bad-email"),
        subject := .string (jsStr "Hi"), message := .string (jsStr "short") }
      (by decide)).1⟩

/-- C12: for every valid submission and a relay that accepts every message, the relay
calls are exactly the owner notification followed by the sender acknowledgment, and the
response is the success rendering, with no error and nothing logged. -/
theorem postContact_delivers {ε : Type} (env : Env) (fecha : JSString) (relay : Relay ε)
    (body : ContactData) (h : (validateContactForm body).isValid = true)
    (haccept : ∀ log mail, relay log mail = none) :
    (postContact env fecha relay body).sent
      = [mailToOwner env fecha (sanitizedOf body), mailToSender env (sanitizedOf body)] ∧
    (postContact env fecha relay body).response = successResponse ∧
    (postContact env fecha relay body).response.context.error = none ∧
    (postContact env fecha relay body).logged = none := by
  rw [postContact_both_accepted env fecha relay body h (haccept _ _) (haccept _ _)]
  exact ⟨rfl, rfl, rfl, rfl⟩

/-- Witness for C12: the submission name "Jo", email "jo@example.com", subject
"Hi there", message "This is a long enough message." is valid; with an accepting relay
exactly two messages are submitted and the success message is rendered. -/
theorem postContact_delivers_witness :
    (postContact ⟨none, none⟩ [] (fun _ _ => (none : Option Unit))
      { name := .string (jsStr "Jo"), email := .string (jsStr "jo@example.com"),
        subject := .string (jsStr "Hi there"),
        message := .string (jsStr "This is a long enough message.") }).sent.length = 2 ∧
    (postContact ⟨none, none⟩ [] (fun _ _ => (none : Option Unit))
      { name := .string (jsStr "Jo"), email := .string (jsStr "jo@example.com"),
        subject := .string (jsStr "Hi there"),
        message := .string (jsStr "This is a long enough message.") }).response.context.success
      = some "¡Mensaje enviado correctamente! Te responderé pronto." := by
  have h := postContact_delivers ⟨none, none⟩ [] (fun _ _ => (none : Option Unit))
    { name := .string (jsStr "Jo"), email := .string (jsStr "jo@example.com"),
      subject := .string (jsStr "Hi there"),
      message := .string (jsStr "This is a long enough message.") }
    (by decide) (fun _ _ => rfl)
  rw [h.1, h.2.1]
  exact ⟨rfl, rfl⟩

/-- C13: for every valid submission, when the relay fails on the owner notification the
handler renders the generic failure (never the success message) and does not attempt
the sender acknowledgment: the relay saw exactly one submission. -/
theorem postContact_first_call_fails {ε : Type} (env : Env) (fecha : JSString)
    (relay : Relay ε) (body : ContactData) (e : ε)
    (h : (validateContactForm body).isValid = true)
    (hfail : relay [] (mailToOwner env fecha (sanitizedOf body)) = some e) :
    (postContact env fecha relay body).response = failureResponse body ∧
    (postContact env fecha relay body).response.context.error = some genericError ∧
    (postContact env fecha relay body).response.context.success = none ∧
    (postContact env fecha relay body).sent = [mailToOwner env fecha (sanitizedOf body)] ∧
    (postContact env fecha relay body).sent.length = 1 := by
  rw [postContact_first_fails env fecha relay body e h hfail]
  exact ⟨rfl, rfl, rfl, rfl, rfl⟩

/-- Witness for C13: a relay that rejects every message, on a valid submission. -/
theorem postContact_first_call_fails_witness :
    (postContact ⟨none, none⟩ [] (fun _ _ => some "ECONNREFUSED")
      { name := .string (jsStr "Jo"), email := .string (jsStr "jo@example.com"),
        subject := .string (jsStr "Hi there"),
        message := .string (jsStr "This is a long enough message.") }).sent.length = 1 :=
  (postContact_first_call_fails ⟨none, none⟩ [] (fun _ _ => some "ECONNREFUSED")
    { name := .string (jsStr "Jo"), email := .string (jsStr "jo@example.com"),
      subject := .string (jsStr "Hi there"),
      message := .string (jsStr "This is a long enough message.") } "ECONNREFUSED"
    (by decide) rfl).2.2.2.2

/-- C14: for every valid submission, when the relay accepts the owner notification and
fails on the sender acknowledgment the handler renders the same response as when the
first call fails, without a success message; the calls made are the owner notification
and the failed acknowledgment, and none follows them. -/
theorem postContact_second_call_fails {ε : Type} (env : Env) (fecha : JSString)
    (relay relay1 : Relay ε) (body : ContactData) (e e1 : ε)
    (h : (validateContactForm body).isValid = true)
    (hok : relay [] (mailToOwner env fecha (sanitizedOf body)) = none)
    (hfail : relay [mailToOwner env fecha (sanitizedOf body)]
      (mailToSender env (sanitizedOf body)) = some e)
    (hfirst : relay1 [] (mailToOwner env fecha (sanitizedOf body)) = some e1) :
    (postContact env fecha relay body).response
      = (postContact env fecha relay1 body).response ∧
    (postContact env fecha relay body).response = failureResponse body ∧
    (postContact env fecha relay body).response.context.success = none ∧
    (postContact env fecha relay body).sent
      = [mailToOwner env fecha (sanitizedOf body), mailToSender env (sanitizedOf body)] := by
  rw [postContact_second_fails env fecha relay body e h hok hfail,
    postContact_first_fails env fecha relay1 body e1 h hfirst]
  exact ⟨rfl, rfl, rfl, rfl⟩

/-- Witness for C14: a relay that accepts its first message and rejects the second,
against a relay that rejects its first. -/
theorem postContact_second_call_fails_witness :
    (postContact ⟨none, none⟩ []
      (fun log _ => if log.length = 0 then none else some "EENVELOPE")
      { name := .string (jsStr "Jo"), email := .string (jsStr "jo@example.com"),
        subject := .string (jsStr "Hi there"),
        message := .string (jsStr "This is a long enough message.") }).response
    = (postContact ⟨none, none⟩ [] (fun _ _ => some "ECONNREFUSED")
      { name := .string (jsStr "Jo"), email := .string (jsStr "jo@example.com"),
        subject := .string (jsStr "Hi there"),
        message := .string (jsStr "This is a long enough message.") }).response :=
  (postContact_second_call_fails ⟨none, none⟩ []
    (fun log _ => if log.length = 0 then none else some "EENVELOPE")
    (fun _ _ => some "ECONNREFUSED")
    { name := .string (jsStr "Jo"), email := .string (jsStr "jo@example.com"),
      subject := .string (jsStr "Hi there"),
      message := .string (jsStr "This is a long enough message.") }
    "EENVELOPE" "ECONNREFUSED" (by decide) rfl rfl rfl).1

/-- C15: for every valid submission, two relays that fail at the same calls, with
whatever errors, lead to the same response; and whenever an error was caught the
response is the fixed title, the fixed generic error text and the submitted form data,
with nothing of the error in it. -/
theorem postContact_response_independent_of_error {ε₁ ε₂ : Type} (env : Env)
    (fecha : JSString) (relay1 : Relay ε₁) (relay2 : Relay ε₂) (body : ContactData)
    (h : (validateContactForm body).isValid = true)
    (hsame : ∀ log mail, (relay1 log mail).isSome = (relay2 log mail).isSome) :
    (postContact env fecha relay1 body).response
      = (postContact env fecha relay2 body).response ∧
    ((postContact env fecha relay1 body).logged ≠ none →
      (postContact env fecha relay1 body).response =
        renderIndex
          { title := pageTitle, success := none, error := some genericError,
            formData := some body, errors := none }) := by
  have s1 := hsame [] (mailToOwner env fecha (sanitizedOf body))
  have s2 := hsame [mailToOwner env fecha (sanitizedOf body)]
    (mailToSender env (sanitizedOf body))
  rcases a1 : relay1 [] (mailToOwner env fecha (sanitizedOf body)) with _ | e1 <;>
  rcases b1 : relay2 [] (mailToOwner env fecha (sanitizedOf body)) with _ | f1 <;>
  rw [a1, b1] at s1 <;> simp only [Option.isSome, reduceCtorEq] at s1
  · rcases a2 : relay1 [mailToOwner env fecha (sanitizedOf body)]
        (mailToSender env (sanitizedOf body)) with _ | e2 <;>
    rcases b2 : relay2 [mailToOwner env fecha (sanitizedOf body)]
        (mailToSender env (sanitizedOf body)) with _ | f2 <;>
    rw [a2, b2] at s2 <;> simp only [Option.isSome, reduceCtorEq] at s2
    · rw [postContact_both_accepted env fecha relay1 body h a1 a2,
        postContact_both_accepted env fecha relay2 body h b1 b2]
      exact ⟨rfl, fun hl => absurd rfl hl⟩
    · rw [postContact_second_fails env fecha relay1 body e2 h a1 a2,
        postContact_second_fails env fecha relay2 body f2 h b1 b2]
      exact ⟨rfl, fun _ => rfl⟩
  · rw [postContact_first_fails env fecha relay1 body e1 h a1,
      postContact_first_fails env fecha relay2 body f1 h b1]
    exact ⟨rfl, fun _ => rfl⟩

/-- Witness for C15: two relays rejecting the first message with different errors. -/
theorem postContact_response_independent_of_error_witness :
    (postContact ⟨none, none⟩ [] (fun _ _ => some "ECONNREFUSED")
      { name := .string (jsStr "Jo"), email := .string (jsStr "jo@example.com"),
        subject := .string (jsStr "Hi there"),
        message := .string (jsStr "This is a long enough message.") }).response
    = (postContact ⟨none, none⟩ [] (fun _ _ => some (535 : Nat))
      { name := .string (jsStr "Jo"), email := .string (jsStr "jo@example.com"),
        subject := .string (jsStr "Hi there"),
        message := .string (jsStr "This is a long enough message.") }).response :=
  (postContact_response_independent_of_error ⟨none, none⟩ []
    (fun _ _ => some "ECONNREFUSED") (fun _ _ => some (535 : Nat))
    { name := .string (jsStr "Jo"), email := .string (jsStr "jo@example.com"),
      subject := .string (jsStr "Hi there"),
      message := .string (jsStr "This is a long enough message.") }
    (by decide) (fun _ _ => rfl)).1


/-- C16 (as stated, refuted): with `OWNER_EMAIL` set to the empty string the owner
notification of a valid submission goes to the default address, not to `OWNER_EMAIL`. -/
theorem owner_recipient_default_when_empty :
    (validateContactForm
      { name := .string (jsStr "Jo"), email := .string (jsStr "jo@example.com"),
        subject := .string (jsStr "Hi there"),
        message := .string (jsStr "This is a long enough message.") }).isValid = true ∧
    (postContact { EMAIL_USER := some (jsStr "me@example.com"), OWNER_EMAIL := some (jsStr "") }
      [] (fun _ _ => (none : Option Unit))
      { name := .string (jsStr "Jo"), email := .string (jsStr "jo@example.com"),
        subject := .string (jsStr "Hi there"),
        message := .string (jsStr "This is a long enough message.") }).sent.map Mail.to_
      = [jsStr "alex.rivera@email.com", jsStr "jo@example.com"] ∧
    jsStr "alex.rivera@email.com" ≠ jsStr "" := by
  decide

/-- C16 (amended): for every valid submission the handler submits only the owner
notification and the sender acknowledgment built from the sanitized fields. The owner
notification goes to `OWNER_EMAIL` when that is set and not empty and to the default
address when it is unset or empty; its reply-to is the sanitized email and its subject
is "Nuevo mensaje de portafolio: " followed by the sanitized subject. The
acknowledgment goes to the sanitized email. With `EMAIL_USER` set, both carry it as the
address of their sender. -/
theorem notification_addressing {ε : Type} (env : Env) (fecha : JSString) (relay : Relay ε)
    (body : ContactData) (h : (validateContactForm body).isValid = true) :
    (∀ m ∈ (postContact env fecha relay body).sent,
      m = mailToOwner env fecha (sanitizedOf body) ∨ m = mailToSender env (sanitizedOf body)) ∧
    (∀ s, env.OWNER_EMAIL = some s → s ≠ [] →
      (mailToOwner env fecha (sanitizedOf body)).to_ = s) ∧
    (env.OWNER_EMAIL = none ∨ env.OWNER_EMAIL = some [] →
      (mailToOwner env fecha (sanitizedOf body)).to_ = jsStr "alex.rivera@email.com") ∧
    (mailToOwner env fecha (sanitizedOf body)).replyTo = some (sanitizeInput body.email) ∧
    (mailToOwner env fecha (sanitizedOf body)).subject
      = jsStr "Nuevo mensaje de portafolio: " ++ sanitizeInput body.subject ∧
    (mailToSender env (sanitizedOf body)).to_ = sanitizeInput body.email ∧
    (∀ u, env.EMAIL_USER = some u →
      (mailToOwner env fecha (sanitizedOf body)).from_
        = jsStr "\"Portafolio Contacto\" <" ++ u ++ jsStr ">" ∧
      (mailToSender env (sanitizedOf body)).from_
        = jsStr "\"Alex Rivera\" <" ++ u ++ jsStr ">") := by
  refine ⟨?_, ?_, ?_, rfl, rfl, rfl, ?_⟩
  · intro m hm
    rcases postContact_valid_cases env fecha relay body h with ⟨e, he⟩ | ⟨e, he⟩ | he <;>
      rw [he] at hm <;> simp only [List.mem_cons, List.mem_nil_iff, or_false] at hm
    · exact Or.inl hm
    · exact hm
    · exact hm
  · intro s hs hne
    have hlen : s.length ≠ 0 := fun h0 => hne (List.length_eq_zero.mp h0)
    simp [mailToOwner, orDefault, hs, hlen]
  · rintro (hs | hs) <;> simp [mailToOwner, orDefault, hs]
  · intro u hu
    simp [mailToOwner, mailToSender, templateValue, hu]

/-- Witness for C16 (amended): with `OWNER_EMAIL` set, the owner notification of a
valid submission goes to it. -/
theorem notification_addressing_witness :
    (mailToOwner
      { EMAIL_USER := some (jsStr "me@example.com"),
        OWNER_EMAIL := some (jsStr "owner@example.com") } []
      (sanitizedOf
        { name := .string (jsStr "Jo"), email := .string (jsStr "jo@example.com"),
          subject := .string (jsStr "Hi there"),
          message := .string (jsStr "This is a long enough message.") })).to_
      = jsStr "owner@example.com" :=
  (notification_addressing
    { EMAIL_USER := some (jsStr "me@example.com"),
      OWNER_EMAIL := some (jsStr "owner@example.com") } []
    (fun _ _ => (none : Option Unit))
    { name := .string (jsStr "Jo"), email := .string (jsStr "jo@example.com"),
      subject := .string (jsStr "Hi there"),
      message := .string (jsStr "This is a long enough message.") }
    (by decide)).2.1 (jsStr "owner@example.com") rfl (by decide)

/-! ## Further claims on validation and sanitization -/

/-- C17: the keys of the errors object returned by `validateContactForm` come in the
fixed field order: they are a subsequence of name, email, subject, message. -/
theorem validateContactForm_keys_in_field_order (data : ContactData) :
    List.Sublist (validateContactForm data).errors.keys
      [Field.name, Field.email, Field.subject, Field.message] := by
  rw [keys_eq]
  exact List.filter_sublist _

/-- C18: each validator decides on the trimmed value: it accepts a string exactly when
it accepts that string trimmed. -/
theorem validators_accept_iff_trimmed (f : Field) (v : JSString) :
    validators f (.string v) = none ↔ validators f (.string (trim v)) = none :=
  (validators_trim f v).symm

theorem validatorsChecked_eq (f : Field) (v : JSValue) :
    validatorsChecked f v = .ok (validators f v) := by
  cases f <;> cases v <;>
    simp only [validatorsChecked, validators, validators.nameChecked, validators.emailChecked,
      validators.subjectChecked, validators.messageChecked, validators.name, validators.email,
      validators.subject, validators.message, JSValue.trimCall, JSValue.units,
      JSValue.toBoolean, JSValue.isString] <;>
    split_ifs <;> first | rfl | simp_all

theorem validateStepChecked_eq (data : ContactData) (errors : Errors) (f : Field) :
    validateStepChecked data errors f = .ok (validateStep data errors f) := by
  simp only [validateStepChecked, validatorsChecked_eq, validateStep]

theorem validateContactFormChecked_eq (data : ContactData) :
    validateContactFormChecked data = .ok (validateContactForm data) := by
  simp only [validateContactFormChecked, validatorKeys, List.foldlM, validateStepChecked_eq,
    validateContactForm, List.foldl]
  rfl

theorem validators_required (f : Field) (v : JSValue) (h : ∀ s, v = .string s → s = []) :
    validators f v = some (requiredMessage f) := by
  cases v with
  | string s =>
    have := h s rfl
    subst this
    cases f <;> rfl
  | _ =>
    cases f <;>
      simp [validators, validators.name, validators.email, validators.subject,
        validators.message, JSValue.isString, requiredMessage]

/-- C19: validation errors are values, never exceptions. With `value.trim()` able to
throw, `validateContactForm` still returns for every submission, whatever its four
values; a field that is missing, not a string or the empty string gets that field's
"required" message; an empty body gets the four of them. -/
theorem validateContactForm_never_throws :
    (∀ data : ContactData, validateContactFormChecked data = .ok (validateContactForm data)) ∧
    (∀ (data : ContactData) (f : Field), (∀ s, data.get f = .string s → s = []) →
      (validateContactForm data).errors.get f = some (requiredMessage f)) ∧
    (validateContactForm
      { name := .undefined, email := .undefined, subject := .undefined,
        message := .undefined }).errors
      = [(Field.name, "El nombre es requerido"), (Field.email, "El email es requerido"),
         (Field.subject, "El asunto es requerido"),
         (Field.message, "El mensaje es requerido")] := by
  refine ⟨validateContactFormChecked_eq, fun data f h => ?_, by decide⟩
  rw [errors_get_eq]
  exact validators_required f _ h

/-- C20: the 5000-unit limit of `sanitizeInput` never cuts a validated field: for every
accepted submission each sanitized field is the trimmed value with every `<` and `>`
removed, and the sanitized name is the trimmed name itself. -/
theorem sanitizeInput_no_truncation_on_valid (data : ContactData)
    (h : (validateContactForm data).isValid = true) :
    (∀ f, sanitizeInput (data.get f) = stripAngles (trim (data.get f).units)) ∧
    sanitizeInput data.name = trim data.name.units := by
  constructor
  · intro f
    obtain ⟨s, hs, hv⟩ := isValid_fields data h f
    rw [hs, sanitizeInput_string]
    exact List.take_of_length_le
      (le_trans (stripAngles_length_le _) (accepted_length f s hv))
  · obtain ⟨s, hs, hv⟩ := isValid_fields data h Field.name
    simp only [ContactData.get] at hs
    rw [hs]
    exact sanitize_name s hv

/-- Witness for C20: an accepted submission whose message holds angle brackets keeps
every other code unit of it. -/
theorem sanitizeInput_no_truncation_on_valid_witness :
    sanitizeInput (.string (jsStr "  a <b>long</b> enough message  "))
      = jsStr "a blong/b enough message" := by
  have h := (sanitizeInput_no_truncation_on_valid
    { name := .string (jsStr "Jo"), email := .string (jsStr "jo@example.com"),
      subject := .string (jsStr "Hi there"),
      message := .string (jsStr "  a <b>long</b> enough message  ") }
    (by decide)).1 Field.message
  simp only [ContactData.get] at h
  rw [h]
  decide

/-! ## Browser-side validators against the server -/

theorem client_guard (v : JSString) :
    (!(JSValue.string (trim v)).toBoolean) = decide ((trim v).length = 0) := by
  cases h : trim v <;> simp [JSValue.toBoolean]

theorem clientMain_name_accepts (v : JSString) (h : ClientMain.validators.name v = "") :
    validators.name (.string v) = none := by
  rw [name_accepts_iff]
  simp only [ClientMain.validators.name, client_guard, decide_eq_true_eq] at h
  split_ifs at h with h1 h2 h3 h4
  · exact absurd h (by decide)
  · exact absurd h (by decide)
  · exact absurd h (by decide)
  · exact absurd h (by decide)
  · have ht : nameRegex.test (trim v) = true := by simpa using h4
    exact ⟨by omega, by omega, ((nameRegex_test (trim v)).mp ht).2⟩

theorem clientMain_email_accepts (v : JSString) (h : ClientMain.validators.email v = "") :
    validators.email (.string v) = none := by
  rw [email_accepts_iff]
  simp only [ClientMain.validators.email, client_guard, decide_eq_true_eq] at h
  split_ifs at h with h1 h2 h3
  · exact absurd h (by decide)
  · exact absurd h (by decide)
  · exact absurd h (by decide)
  · have ht : emailRegex.test v = true := by simpa using h2
    have hs := (emailRegex_test_iff_shape v).mp ht
    have htrim : trim v = v := trim_of_no_ws v hs.1
    rw [htrim] at h3 ⊢
    exact ⟨by omega, hs⟩

theorem clientMain_subject_accepts (v : JSString) (h : ClientMain.validators.subject v = "") :
    validators.subject (.string v) = none := by
  rw [subject_accepts_iff]
  simp only [ClientMain.validators.subject, client_guard, decide_eq_true_eq] at h
  split_ifs at h with h1 h2 h3
  · exact absurd h (by decide)
  · exact absurd h (by decide)
  · exact absurd h (by decide)
  · omega

theorem clientMain_message_accepts (v : JSString) (h : ClientMain.validators.message v = "") :
    validators.message (.string v) = none := by
  rw [message_accepts_iff]
  simp only [ClientMain.validators.message, client_guard, decide_eq_true_eq] at h
  split_ifs at h with h1 h2 h3
  · exact absurd h (by decide)
  · exact absurd h (by decide)
  · exact absurd h (by decide)
  · omega

/-- C21 (as stated, refuted): the four validators of `src/public/js/main.js` accept the
values name "Jo3", email "jo@example.com", subject "Hi there", message
"This is a long enough message.", and `validateContactForm` rejects them: the name
fails the server's character rule, which that script does not have. -/
theorem served_client_validators_weaker :
    ClientPublic.validators.name (jsStr "Jo3") = "" ∧
    ClientPublic.validators.email (jsStr "jo@example.com") = "" ∧
    ClientPublic.validators.subject (jsStr "Hi there") = "" ∧
    ClientPublic.validators.message (jsStr "This is a long enough message.") = "" ∧
    (validateContactForm
      { name := .string (jsStr "Jo3"), email := .string (jsStr "jo@example.com"),
        subject := .string (jsStr "Hi there"),
        message := .string (jsStr "This is a long enough message.") }).isValid = false ∧
    (validateContactForm
      { name := .string (jsStr "Jo3"), email := .string (jsStr "jo@example.com"),
        subject := .string (jsStr "Hi there"),
        message := .string (jsStr "This is a long enough message.") }).errors
      = [(Field.name, "El nombre contiene caracteres inválidos")] := by
  decide

/-- The validators of the sibling script `src/main.js`, which is not under the served
directory, are at least as strict as the server's: whenever the four of them return the
empty string for four strings, `validateContactForm` returns `isValid` true for the same
values. -/
theorem clientMain_validators_imply_server (name email subject message : JSString)
    (hn : ClientMain.validators.name name = "")
    (he : ClientMain.validators.email email = "")
    (hs : ClientMain.validators.subject subject = "")
    (hm : ClientMain.validators.message message = "") :
    (validateContactForm
      { name := .string name, email := .string email, subject := .string subject,
        message := .string message }).isValid = true := by
  rw [isValid_iff]
  intro f
  cases f
  · exact clientMain_name_accepts name hn
  · exact clientMain_email_accepts email he
  · exact clientMain_subject_accepts subject hs
  · exact clientMain_message_accepts message hm

/-- The preceding statement at four values the validators of `src/main.js` accept. -/
theorem clientMain_validators_imply_server_witness :
    (validateContactForm
      { name := .string (jsStr "Jo"), email := .string (jsStr "jo@example.com"),
        subject := .string (jsStr "Hi there"),
        message := .string (jsStr "This is a long enough message.") }).isValid = true :=
  clientMain_validators_imply_server (jsStr "Jo") (jsStr "jo@example.com") (jsStr "Hi there")
    (jsStr "This is a long enough message.") (by decide) (by decide) (by decide) (by decide)

/-! ## The served validators against the server -/

theorem clientPublic_name_server (v : JSString) (h : ClientPublic.validators.name v = "") :
    2 ≤ (trim v).length ∧
    validators.name (.string v) =
      (if (trim v).length > 100 then some "El nombre es demasiado largo"
       else if !nameRegex.test (trim v) then some "El nombre contiene caracteres inválidos"
       else none) := by
  have hl := trim_length_le v
  simp only [ClientPublic.validators.name, client_guard, decide_eq_true_eq] at h
  split_ifs at h with h1 h2
  · exact absurd h (by decide)
  · exact absurd h (by decide)
  · refine ⟨by omega, ?_⟩
    have hv : ¬ v.length = 0 := by omega
    simp only [validators.name, required_guard, JSValue.units, decide_eq_true_eq, hv, h2,
      if_false]

theorem clientPublic_email_server (v : JSString) (h : ClientPublic.validators.email v = "") :
    emailShape (trim v) ∧
    validators.email (.string v) =
      (if (trim v).length > 254 then some "Email demasiado largo" else none) := by
  have hl := trim_length_le v
  simp only [ClientPublic.validators.email, client_guard, decide_eq_true_eq] at h
  split_ifs at h with h1 h2
  · exact absurd h (by decide)
  · exact absurd h (by decide)
  · have ht : emailRegex.test v = true := by simpa using h2
    have hs := (emailRegex_test_iff_shape v).mp ht
    have htrim : trim v = v := trim_of_no_ws v hs.1
    refine ⟨by rw [htrim]; exact hs, ?_⟩
    have hv : ¬ v.length = 0 := by omega
    simp only [validators.email, required_guard, JSValue.units, decide_eq_true_eq, hv, htrim,
      ht, if_false, Bool.not_true, Bool.false_eq_true]

theorem clientPublic_subject_server (v : JSString)
    (h : ClientPublic.validators.subject v = "") :
    3 ≤ (trim v).length ∧
    validators.subject (.string v) =
      (if (trim v).length > 200 then some "El asunto es demasiado largo" else none) := by
  have hl := trim_length_le v
  simp only [ClientPublic.validators.subject, client_guard, decide_eq_true_eq] at h
  split_ifs at h with h1 h2
  · exact absurd h (by decide)
  · exact absurd h (by decide)
  · refine ⟨by omega, ?_⟩
    have hv : ¬ v.length = 0 := by omega
    simp only [validators.subject, required_guard, JSValue.units, decide_eq_true_eq, hv, h2,
      if_false]

theorem clientPublic_message_server (v : JSString)
    (h : ClientPublic.validators.message v = "") :
    10 ≤ (trim v).length ∧
    validators.message (.string v) =
      (if (trim v).length > 5000 then some "El mensaje es demasiado largo" else none) := by
  have hl := trim_length_le v
  simp only [ClientPublic.validators.message, client_guard, decide_eq_true_eq] at h
  split_ifs at h with h1 h2
  · exact absurd h (by decide)
  · exact absurd h (by decide)
  · refine ⟨by omega, ?_⟩
    have hv : ¬ v.length = 0 := by omega
    simp only [validators.message, required_guard, JSValue.units, decide_eq_true_eq, hv, h2,
      if_false]

/-- C21 (amended): the validators served to users (`src/public/js/main.js`) are at least
as strict as the server's on presence, minimum length and the email pattern, and on
nothing else. Whenever the four of them return the empty string, `validateContactForm`
returns `isValid` true exactly when the trimmed name has at most 100 code units, all of
them letters, listed accented letters or white space, the trimmed email at most 254, the
trimmed subject at most 200 and the trimmed message at most 5000; and the only messages
the server can then return are the "too long" ones and the name's invalid-characters
one. -/
theorem served_validators_imply_server_up_to_bounds (name email subject message : JSString)
    (hn : ClientPublic.validators.name name = "")
    (he : ClientPublic.validators.email email = "")
    (hs : ClientPublic.validators.subject subject = "")
    (hm : ClientPublic.validators.message message = "") :
    ((validateContactForm
        { name := .string name, email := .string email, subject := .string subject,
          message := .string message }).isValid = true ↔
      (trim name).length ≤ 100 ∧ (∀ c ∈ trim name, isNameChar c) ∧
      (trim email).length ≤ 254 ∧ (trim subject).length ≤ 200 ∧
      (trim message).length ≤ 5000) ∧
    (validators.name (.string name) = none ∨
      validators.name (.string name) = some "El nombre es demasiado largo" ∨
      validators.name (.string name) = some "El nombre contiene caracteres inválidos") ∧
    (validators.email (.string email) = none ∨
      validators.email (.string email) = some "Email demasiado largo") ∧
    (validators.subject (.string subject) = none ∨
      validators.subject (.string subject) = some "El asunto es demasiado largo") ∧
    (validators.message (.string message) = none ∨
      validators.message (.string message) = some "El mensaje es demasiado largo") := by
  obtain ⟨n1, n2⟩ := clientPublic_name_server name hn
  obtain ⟨e1, e2⟩ := clientPublic_email_server email he
  obtain ⟨s1, s2⟩ := clientPublic_subject_server subject hs
  obtain ⟨m1, m2⟩ := clientPublic_message_server message hm
  refine ⟨?_, ?_, ?_, ?_, ?_⟩
  · rw [isValid_iff]
    constructor
    · intro h
      have a := (name_accepts_iff name).mp (h Field.name)
      have b := (email_accepts_iff email).mp (h Field.email)
      have c := (subject_accepts_iff subject).mp (h Field.subject)
      have d := (message_accepts_iff message).mp (h Field.message)
      exact ⟨a.2.1, a.2.2, b.1, c.2, d.2⟩
    · rintro ⟨a, b, c, d, e⟩ f
      cases f
      · exact (name_accepts_iff name).mpr ⟨n1, a, b⟩
      · exact (email_accepts_iff email).mpr ⟨c, e1⟩
      · exact (subject_accepts_iff subject).mpr ⟨s1, d⟩
      · exact (message_accepts_iff message).mpr ⟨m1, e⟩
  · rw [n2]
    split_ifs <;> simp
  · rw [e2]
    split_ifs <;> simp
  · rw [s2]
    split_ifs <;> simp
  · rw [m2]
    split_ifs <;> simp

/-- Witness for C21 (amended): the served validators accept the name "Jo3" with an
otherwise valid submission, and the only message the server returns for that name is
the invalid-characters one. -/
theorem served_validators_imply_server_up_to_bounds_witness :
    ClientPublic.validators.name (jsStr "Jo3") = "" ∧
    (validators.name (.string (jsStr "Jo3")) = none ∨
      validators.name (.string (jsStr "Jo3")) = some "El nombre es demasiado largo" ∨
      validators.name (.string (jsStr "Jo3"))
        = some "El nombre contiene caracteres inválidos") ∧
    ((validateContactForm
        { name := .string (jsStr "Jo"), email := .string (jsStr "jo@example.com"),
          subject := .string (jsStr "Hi there"),
          message := .string (jsStr "This is a long enough message.") }).isValid = true ↔
      (trim (jsStr "Jo")).length ≤ 100 ∧ (∀ c ∈ trim (jsStr "Jo"), isNameChar c) ∧
      (trim (jsStr "jo@example.com")).length ≤ 254 ∧ (trim (jsStr "Hi there")).length ≤ 200 ∧
      (trim (jsStr "This is a long enough message.")).length ≤ 5000) :=
  ⟨by decide,
    (served_validators_imply_server_up_to_bounds (jsStr "Jo3") (jsStr "jo@example.com")
      (jsStr "Hi there") (jsStr "This is a long enough message.")
      (by decide) (by decide) (by decide) (by decide)).2.1,
    (served_validators_imply_server_up_to_bounds (jsStr "Jo") (jsStr "jo@example.com")
      (jsStr "Hi there") (jsStr "This is a long enough message.")
      (by decide) (by decide) (by decide) (by decide)).1⟩

/-! ## Status of the response -/

/-- C22: in its three terminal states (rejected by validation, delivered, dispatch
failed) the handler answers with the default status 200, for which `response.ok` is
true; the states differ in the `success` and `error` fields of the rendered context,
never in the status. -/
theorem postContact_status_always_ok {ε : Type} (env : Env) (fecha : JSString)
    (relay : Relay ε) (body : ContactData) :
    (postContact env fecha relay body).response.status = 200 ∧
    (postContact env fecha relay body).response.ok = true ∧
    (((validateContactForm body).isValid = false ∧
        (postContact env fecha relay body).response.context.success = none ∧
        (postContact env fecha relay body).response.context.error
          = some "Por favor, corrige los errores en el formulario") ∨
      ((validateContactForm body).isValid = true ∧
        (postContact env fecha relay body).logged = none ∧
        (postContact env fecha relay body).response.context.success
          = some "¡Mensaje enviado correctamente! Te responderé pronto." ∧
        (postContact env fecha relay body).response.context.error = none) ∨
      ((validateContactForm body).isValid = true ∧
        (postContact env fecha relay body).logged ≠ none ∧
        (postContact env fecha relay body).response.context.success = none ∧
        (postContact env fecha relay body).response.context.error = some genericError)) ∧
    genericError ≠ "Por favor, corrige los errores en el formulario" := by
  refine ⟨?_, ?_, ?_, by decide⟩
  all_goals
    rcases hv : (validateContactForm body).isValid with _ | _
    · rw [postContact_invalid env fecha relay body hv]
      first
        | rfl
        | exact Or.inl ⟨rfl, rfl, rfl⟩
    · rcases postContact_valid_cases env fecha relay body hv with ⟨e, he⟩ | ⟨e, he⟩ | he <;>
        rw [he] <;>
        first
          | rfl
          | exact Or.inr (Or.inr ⟨rfl, by simp, rfl, rfl⟩)
          | exact Or.inr (Or.inl ⟨rfl, rfl, rfl, rfl⟩)

end Portafolio
